import Mathlib

/-!
Verification of the LDAP control codec layer (package controls) against its
specification. Go strings are modelled as byte lists (Go strings are raw byte
strings), machine integers as Int or Nat with explicit wrapping where the code
converts, and the external asn1-ber.v1 packet library as a tree structure with
the byte-level encoders and the packet reader it provides.
-/

set_option maxHeartbeats 1000000
set_option linter.unnecessarySeqFocus false

/-- Go string: a sequence of bytes. -/
abbrev GoStr := List Nat

/-- Bytes of an ASCII string literal (UTF-8 agrees with code points here). -/
def strBytes (s : String) : GoStr := s.data.map Char.toNat

namespace ber

/-- The pre-parsed scalar carried in the Value field of a ber packet, as the
dynamic Go values this codebase stores there: nothing, an int64, an int8
(stored by the Behera encoder), a bool, a string, or a raw byte slice. -/
inductive GoValue where
  | none
  | vint (i : Int)
  | vint8 (i : Int)
  | vbool (b : Bool)
  | vstr (s : GoStr)
  | vbytes (bs : List Nat)
deriving DecidableEq

/-- ber.Packet: identifier (class, constructed flag, tag), pre-parsed Value,
raw Data buffer, child nodes and a Description label. -/
inductive Packet where
  | mk (cls : Nat) (constructed : Bool) (tag : Nat) (value : GoValue)
       (data : List Nat) (children : List Packet) (desc : GoStr)

def Packet.cls : Packet → Nat | .mk c _ _ _ _ _ _ => c
def Packet.constructed : Packet → Bool | .mk _ t _ _ _ _ _ => t
def Packet.tag : Packet → Nat | .mk _ _ g _ _ _ _ => g
def Packet.value : Packet → GoValue | .mk _ _ _ v _ _ _ => v
def Packet.data : Packet → List Nat | .mk _ _ _ _ d _ _ => d
def Packet.children : Packet → List Packet | .mk _ _ _ _ _ ch _ => ch
def Packet.desc : Packet → GoStr | .mk _ _ _ _ _ _ s => s

/-- Replace the description of a packet, the only field the decoders write. -/
def Packet.setDesc (p : Packet) (s : GoStr) : Packet :=
  match p with
  | .mk c t g v d ch _ => .mk c t g v d ch s

def ClassUniversal : Nat := 0
def ClassContext : Nat := 128
def TagBoolean : Nat := 1
def TagInteger : Nat := 2
def TagOctetString : Nat := 4
def TagEnumerated : Nat := 10
def TagSequence : Nat := 16

/-- Go int64Length: number of bytes of the minimal two is complement encoding,
computed by shifting 8 bits at a time while the value is outside one byte.
Arithmetic shift right by 8 on a signed integer is floor division by 256,
which is Int division by the positive constant 256. The loop runs at most 8
times on the int64 inputs the library receives; the fuel covers that range
with room to spare. -/
def int64LengthAux : Nat → Int → Nat
  | 0, _ => 1
  | fuel + 1, i =>
      if 127 < i ∨ i < -128 then 1 + int64LengthAux fuel (i / 256) else 1

def int64Length (i : Int) : Nat := int64LengthAux 16 i

/-- The big-endian byte at weight index k of the two is complement encoding:
shift right arithmetically by 8 * k and truncate to a byte. -/
def beByte (i : Int) (k : Nat) : Nat := ((i / (2 ^ (8 * k))) % 256).toNat

/-- The n big-endian bytes of i, most significant first. -/
def beBytes (i : Int) : Nat → List Nat
  | 0 => []
  | k + 1 => beByte i k :: beBytes i k

/-- Go encodeInteger: minimal-length big-endian two is complement bytes. -/
def encodeInteger (i : Int) : List Nat := beBytes i (int64Length i)

/-- Go uint64Length: bytes needed for an unsigned value, at least one. -/
def uint64LengthAux : Nat → Nat → Nat
  | 0, _ => 1
  | fuel + 1, n => if 255 < n then 1 + uint64LengthAux fuel (n / 256) else 1

def uint64Length (n : Nat) : Nat := uint64LengthAux 16 n

/-- Go encodeUnsignedInteger: minimal big-endian bytes of an unsigned value. -/
def encodeUnsignedInteger (n : Nat) : List Nat := beBytes (Int.ofNat n) (uint64Length n)

/-- The unsigned big-endian value of a byte list, as the reader accumulates it:
shift left 8 and or in each byte. -/
def beVal (bs : List Nat) : Nat := bs.foldl (fun acc b => acc * 256 + b) 0

/-- Go ber.ParseInt64: reject more than 8 bytes, read big-endian, then sign
extend from the top bit of the first byte. An empty slice parses as 0. -/
def ParseInt64 (bs : List Nat) : Except Unit Int :=
  if 8 < bs.length then .error ()
  else
    let ret : Int := Int.ofNat (beVal bs)
    match bs with
    | [] => .ok ret
    | b0 :: _ => if 128 ≤ b0 then .ok (ret - 2 ^ (8 * bs.length)) else .ok ret

/-- Go ber.DecodeString: a Go string is the raw bytes. -/
def DecodeString (bs : List Nat) : GoStr := bs

/-- High-tag-number form: 7-bit groups, big-endian, continuation bit set on
every byte but the last. Only reached for tags of 31 and above. -/
def highTagBytesAux : Nat → Nat → List Nat
  | 0, _ => []
  | fuel + 1, t =>
      if t < 128 then [t]
      else highTagBytesAux fuel (t / 128) ++ [t % 128]

/-- Set the continuation bit on every group except the last. -/
def markContinuation : List Nat → List Nat
  | [] => []
  | [b] => [b]
  | b :: rest => (128 + b) :: markContinuation rest

def highTagBytes (t : Nat) : List Nat := markContinuation (highTagBytesAux 16 t)

/-- Go encodeIdentifier: one byte holding class, constructed bit and tag for
tags below 31, otherwise the 0x1F marker followed by the high-tag bytes. -/
def encodeIdentifier (cls : Nat) (constructed : Bool) (tag : Nat) : List Nat :=
  let cbit : Nat := if constructed then 32 else 0
  if tag < 31 then [cls + cbit + tag]
  else (cls + cbit + 31) :: highTagBytes tag

/-- Go encodeLength: short form for lengths up to 127, otherwise a long-form
marker byte carrying the count of the minimal unsigned big-endian bytes. -/
def encodeLength (n : Nat) : List Nat :=
  let lb := encodeUnsignedInteger n
  if 127 < n then (128 + lb.length) :: lb else lb

/-- Packet.Bytes: identifier, length of the Data buffer, then the Data buffer.
Children are not traversed: AppendChild already wrote their bytes to Data. -/
def Packet.Bytes (p : Packet) : List Nat :=
  encodeIdentifier p.cls p.constructed p.tag ++ encodeLength p.data.length ++ p.data

/-- Go ber.Encode: a fresh packet carrying the given value. Data is written
only for a universal octet string holding a Go string; every other value kind
(including byte slices) leaves Data empty. -/
def Encode (cls : Nat) (constructed : Bool) (tag : Nat) (v : GoValue) (desc : GoStr) : Packet :=
  let data : List Nat :=
    if cls = ClassUniversal ∧ tag = TagOctetString then
      match v with
      | .vstr s => s
      | _ => []
    else []
  .mk cls constructed tag v data [] desc

/-- Go ber.NewString: value and Data are both the string bytes. -/
def NewString (cls : Nat) (constructed : Bool) (tag : Nat) (s : GoStr) (desc : GoStr) : Packet :=
  .mk cls constructed tag (.vstr s) s [] desc

/-- Go ber.NewBoolean: Data is the integer encoding of 0 or 1. -/
def NewBoolean (cls : Nat) (constructed : Bool) (tag : Nat) (b : Bool) (desc : GoStr) : Packet :=
  .mk cls constructed tag (.vbool b) (encodeInteger (if b then 1 else 0)) [] desc

/-- Go ber.NewInteger called with an int64: Data is the two is complement
encoding. -/
def NewInteger (cls : Nat) (constructed : Bool) (tag : Nat) (i : Int) (desc : GoStr) : Packet :=
  .mk cls constructed tag (.vint i) (encodeInteger i) [] desc

/-- Go ber.NewInteger called with an int8 (the Behera error field): same Data,
but the dynamic type of Value is int8. -/
def NewIntegerI8 (cls : Nat) (constructed : Bool) (tag : Nat) (i : Int) (desc : GoStr) : Packet :=
  .mk cls constructed tag (.vint8 i) (encodeInteger i) [] desc

/-- Packet.AppendChild: append the child and write its bytes to Data. -/
def Packet.AppendChild (p : Packet) (c : Packet) : Packet :=
  match p with
  | .mk cl t g v d ch s => .mk cl t g v (d ++ c.Bytes) (ch ++ [c]) s

/-- High-tag-number identifier bytes on the read side: 7-bit groups while the
continuation bit is set. Returns the tag, the count of bytes read, the rest. -/
def readIdentifierLoop : Nat → List Nat → Nat → Option (Nat × Nat × List Nat)
  | 0, _, _ => none
  | _ + 1, [], _ => none
  | fuel + 1, b :: rest, acc =>
      let acc := acc * 128 + b % 128
      if b < 128 then some (acc, 1, rest)
      else
        match readIdentifierLoop fuel rest acc with
        | some (t, n, r) => some (t, n + 1, r)
        | none => none

/-- Big-endian accumulation of the long-form length bytes. -/
def readLengthBytes : Nat → List Nat → Nat → Option (Nat × List Nat)
  | 0, input, acc => some (acc, input)
  | _ + 1, [], _ => none
  | k + 1, b :: rest, acc => readLengthBytes k rest (acc * 256 + b)

/-- Go readLength: 0xFF is invalid, 0x80 (indefinite) is not supported by the
packet reader, a byte below 0x80 is the length, otherwise the low bits count
the big-endian length bytes that follow. Returns length, bytes read, rest. -/
def readLength : List Nat → Option (Nat × Nat × List Nat)
  | [] => none
  | b :: rest =>
      if b = 255 then none
      else if b = 128 then none
      else if b < 128 then some (b, 1, rest)
      else
        match readLengthBytes (b - 128) rest 0 with
        | some (n, r) => some (n, 1 + (b - 128), r)
        | none => none

/-- The packet the reader builds for a primitive node: Data is the content and
Value is pre-parsed for the universal tags this codebase reads back (boolean,
integer, enumerated, octet string and the other string tags). A failed integer
parse leaves the accumulated zero, as the reader drops that error. -/
def readValue (cls tag : Nat) (content : List Nat) : GoValue :=
  if cls = ClassUniversal then
    if tag = TagBoolean then
      .vbool (match ParseInt64 content with | .ok v => v ≠ 0 | .error _ => false)
    else if tag = TagInteger ∨ tag = TagEnumerated then
      .vint (match ParseInt64 content with | .ok v => v | .error _ => 0)
    else if tag = TagOctetString ∨ tag = 12 ∨ tag = 19 then .vstr content
    else .none
  else .none

mutual

/-- Go readPacket with explicit fuel (the reader consumes at least one byte
before every recursive call, so fuel equal to the input length is enough for
any parse the Go reader completes). A constructed node reads children until
their byte count reaches the announced length and rebuilds Data from the
children, as AppendChild does; a primitive node takes the announced number of
content bytes. -/
def readPacket : Nat → List Nat → Option (Packet × Nat × List Nat)
  | 0, _ => none
  | fuel + 1, input =>
      match input with
      | [] => none
      | b :: rest1 =>
          let cls := b / 64 * 64
          let constructed : Bool := b % 64 / 32 = 1
          let lowTag := b % 32
          let idTail : Option (Nat × Nat × List Nat) :=
            if lowTag = 31 then readIdentifierLoop 16 rest1 0 else some (lowTag, 0, rest1)
          match idTail with
          | none => none
          | some (tag, idExtra, rest2) =>
              match readLength rest2 with
              | none => none
              | some (len, lenRead, rest3) =>
                  let headerRead := 1 + idExtra + lenRead
                  if constructed then
                    match readChildren fuel len rest3 with
                    | none => none
                    | some (cs, csRead, rest4) =>
                        some (.mk cls true tag .none ((cs.map Packet.Bytes).flatten) cs [],
                              headerRead + csRead, rest4)
                  else
                    if rest3.length < len then none
                    else
                      some (.mk cls false tag (readValue cls tag (rest3.take len))
                              (rest3.take len) [] [],
                            headerRead + len, rest3.drop len)

/-- The child loop of readPacket: keep reading packets until the accumulated
byte count reaches the remaining announced length. -/
def readChildren : Nat → Nat → List Nat → Option (List Packet × Nat × List Nat)
  | 0, _, _ => none
  | _ + 1, 0, input => some ([], 0, input)
  | fuel + 1, need, input =>
      match readPacket fuel input with
      | none => none
      | some (c, r, rest) =>
          match readChildren fuel (need - r) rest with
          | some (cs, rs, rest2) => some (c :: cs, r + rs, rest2)
          | none => none

end

/-- Go ber.DecodePacketErr: read one packet off the byte slice; trailing bytes
are ignored. -/
def DecodePacketErr (data : List Nat) : Except Unit Packet :=
  match readPacket (data.length + 1) data with
  | some (p, _, _) => .ok p
  | none => .error ()

end ber

namespace controls

def ControlOIDManageDsaIT : GoStr := strBytes ("2.16.840.1.113730.3.4.2")
def ControlOIDPaging : GoStr := strBytes ("1.2.840.113556.1.4.319")
def ControlOIDBeheraPasswordPolicy : GoStr := strBytes ("1.3.6.1.4.1.42.2.27.8.5.1")
def ControlOIDProxiedAuthorization : GoStr := strBytes ("2.16.840.1.113730.3.4.18")
def ControlOIDVChuPasswordMustChange : GoStr := strBytes ("2.16.840.1.113730.3.4.4")
def ControlOIDVChuPasswordWarning : GoStr := strBytes ("2.16.840.1.113730.3.4.5")
def ControlOIDPreRead : GoStr := strBytes ("1.3.6.1.1.13.1")
def ControlOIDPostRead : GoStr := strBytes ("1.3.6.1.1.13.2")

/-- The errors of the controls package. The four named errors are the package
level sentinels; the remaining constructors stand for the distinct fmt.Errorf
call sites (one constructor per format string) and for the error produced by
the recover handler in Decode. -/
inductive GoErr where
  | invalidControlData
  | invalidControlValue
  | missingControlValue
  | missingControlDecoder
  | panicCaught
  | parseIntFailed
  | invalidWarningTag (t : Nat)
  | invalidChildTag (t : Nat)
  | invalidOIDForDecoder
  | valueDecodeFailed
  | invalidTagOnValue
  | vchuParseFailed
  | invalidControlPasswd
deriving DecidableEq

/-- The closed set of Control implementations of the package, plus the
UnknownControl fallback. Field order follows the Go structs. -/
inductive Control where
  | manageDsaIT (b : Bool)
  | paging (critical : Bool) (size : Nat) (cookie : List Nat)
  | behera (expire grace : Int) (error : Int) (errorString : GoStr) (critical : Bool)
  | proxiedAuthorization (critical : Bool) (authzID : GoStr)
  | vchuPasswordMustChange (b : Bool)
  | vchuPasswordWarning (i : Int)
  | prePostRead (isRequest : Bool) (controlOID : GoStr) (critical : Bool)
      (attrs : List GoStr) (dn : GoStr) (attrVals : List (GoStr × List GoStr))
  | unknown (oid : GoStr) (criticality : Bool)
deriving DecidableEq

/-- The OID method of each Control implementation. -/
def OID : Control → GoStr
  | .manageDsaIT _ => ControlOIDManageDsaIT
  | .paging _ _ _ => ControlOIDPaging
  | .behera _ _ _ _ _ => ControlOIDBeheraPasswordPolicy
  | .proxiedAuthorization _ _ => ControlOIDProxiedAuthorization
  | .vchuPasswordMustChange _ => ControlOIDVChuPasswordMustChange
  | .vchuPasswordWarning _ => ControlOIDVChuPasswordWarning
  | .prePostRead _ o _ _ _ _ => o
  | .unknown o _ => o

/-- The Name method of each Control implementation. -/
def Name : Control → GoStr
  | .manageDsaIT _ => strBytes ("Manage DSA IT")
  | .paging _ _ _ => strBytes ("Paging")
  | .behera _ _ _ _ _ => strBytes ("Password Policy - Behera Draft")
  | .proxiedAuthorization _ _ => strBytes ("Proxied Authorization")
  | .vchuPasswordMustChange _ => strBytes ("VChu Password Policy - Password Must Change")
  | .vchuPasswordWarning _ => strBytes ("VChu Password Policy - Password Expires")
  | .prePostRead _ o _ _ _ _ =>
      if o = ControlOIDPreRead then strBytes ("Pre Read - RFC 4527")
      else strBytes ("Post Read - RFC 4527")
  | .unknown _ _ => strBytes ("unknown")

/-- The Criticality method of each Control implementation. The two VChu
controls report false unconditionally. -/
def Criticality : Control → Bool
  | .manageDsaIT b => b
  | .paging cr _ _ => cr
  | .behera _ _ _ _ cr => cr
  | .proxiedAuthorization cr _ => cr
  | .vchuPasswordMustChange _ => false
  | .vchuPasswordWarning _ => false
  | .prePostRead _ _ cr _ _ _ => cr
  | .unknown _ cr => cr

/-- BeheraPasswordPolicyErrorMap: the fixed int8-keyed table; any other key
reads the map zero value, the empty string. -/
def BeheraPasswordPolicyErrorMap (er : Int) : GoStr :=
  if er = 0 then strBytes ("Password expired")
  else if er = 1 then strBytes ("Account locked")
  else if er = 2 then strBytes ("Password must be changed")
  else if er = 3 then strBytes ("Policy prevents password modification")
  else if er = 4 then strBytes ("Policy requires old password in order to change password")
  else if er = 5 then strBytes ("Password fails quality checks")
  else if er = 6 then strBytes ("Password is too short for policy")
  else if er = 7 then strBytes ("Password has been changed too recently")
  else if er = 8 then strBytes ("New password is in list of old passwords")
  else []

/-- controls.Encode: the envelope wrapper. Child 1 is the OID string, child 2
the criticality boolean only when true, child 3 the value when present. -/
def Encode (c : Control) (val : Option ber.Packet) : ber.Packet :=
  let packet := ber.Encode ber.ClassUniversal true ber.TagSequence .none (strBytes ("Control"))
  let packet := packet.AppendChild
    (ber.NewString ber.ClassUniversal false ber.TagOctetString (OID c) (Name c))
  let packet :=
    if Criticality c then
      packet.AppendChild
        (ber.NewBoolean ber.ClassUniversal false ber.TagBoolean (Criticality c)
          (strBytes ("Criticality")))
    else packet
  match val with
  | some v => packet.AppendChild v
  | none => packet

/-- ManageDsaIT.Encode: bare envelope, criticality is the flag itself. -/
def manageDsaITEncode (b : Bool) : ber.Packet := Encode (.manageDsaIT b) none

/-- Paging.Encode: value sequence of the int64 page size and the raw cookie
packet (Value and Data set by hand to the cookie bytes). -/
def pagingEncode (critical : Bool) (size : Nat) (cookie : List Nat) : ber.Packet :=
  let val := ber.Encode ber.ClassUniversal true ber.TagSequence .none (strBytes ("Control Value"))
  let val := val.AppendChild
    (ber.NewInteger ber.ClassUniversal false ber.TagInteger (Int.ofNat size)
      (strBytes ("Paging Size")))
  let cookiePkt :=
    ber.Packet.mk ber.ClassUniversal false ber.TagOctetString (.vbytes cookie) cookie []
      (strBytes ("Cookie"))
  let val := val.AppendChild cookiePkt
  Encode (.paging critical size cookie) (some val)

/-- BeheraPasswordPolicy.Encode: bare envelope when all three fields are
negative; otherwise a sequence holding an optional warning wrapper (context
tag 0, containing the expire integer at nested tag 0 when expire is set and
otherwise the grace integer at nested tag 1) followed by an optional error
integer at context tag 1 carried as an int8. -/
def beheraEncode (expire grace er : Int) (errorString : GoStr) (critical : Bool) : ber.Packet :=
  let c : Control := .behera expire grace er errorString critical
  if grace < 0 ∧ expire < 0 ∧ er < 0 then Encode c none
  else
    let val := ber.Encode ber.ClassUniversal true ber.TagSequence .none (strBytes ("Control Value"))
    let val :=
      if 0 ≤ grace ∨ 0 ≤ expire then
        let p :=
          if 0 ≤ expire then
            ber.NewInteger ber.ClassContext false 0 expire (strBytes ("Time Before Expiration"))
          else
            ber.NewInteger ber.ClassContext false 1 grace (strBytes ("graceAuthNsRemaining"))
        let wp := ber.Encode ber.ClassContext true 0 .none (strBytes ("Warning Packet"))
        let wp := wp.AppendChild p
        val.AppendChild wp
      else val
    let val :=
      if 0 ≤ er then
        val.AppendChild
          (ber.NewIntegerI8 ber.ClassContext false 1 er (BeheraPasswordPolicyErrorMap er))
      else val
    Encode c (some val)

/-- ProxiedAuthorization.Encode: the value is built by handing the inner
octet string bytes to ber.Encode as a byte slice, which ber.Encode does not
write to Data (it only writes universal octet string values that are Go
strings), so the value packet carries the bytes only in its Value field. -/
def proxiedAuthorizationEncode (critical : Bool) (authzID : GoStr) : ber.Packet :=
  let id := ber.NewString ber.ClassUniversal false ber.TagOctetString authzID
    (strBytes ("AuthzID"))
  let val := ber.Encode ber.ClassUniversal true ber.TagOctetString (.vbytes id.Bytes)
    (strBytes ("Control Value"))
  Encode (.proxiedAuthorization critical authzID) (some val)

/-- VChuPasswordMustChange.Encode: value is a sequence holding the literal
string 0 as an octet string built through ber.Encode. -/
def vchuPasswordMustChangeEncode (b : Bool) : ber.Packet :=
  let val := ber.Encode ber.ClassUniversal true ber.TagSequence .none (strBytes ("Control Value"))
  let val := val.AppendChild
    (ber.Encode ber.ClassUniversal false ber.TagOctetString (.vstr (strBytes ("0")))
      (strBytes ("Value")))
  Encode (.vchuPasswordMustChange b) (some val)

/-- Decimal digits of an unsigned value, most significant first. The fuel
covers every int64. -/
def decDigitsAux : Nat → Nat → List Nat
  | 0, _ => []
  | fuel + 1, n => if n = 0 then [] else decDigitsAux fuel (n / 10) ++ [48 + n % 10]

def natDecimal (n : Nat) : List Nat :=
  if n = 0 then [48] else decDigitsAux 32 n

/-- fmt.Sprintf of an int64 with the %d verb: a minus sign for negatives and
the decimal digits. -/
def goItoa (i : Int) : GoStr :=
  if i < 0 then 45 :: natDecimal (-i).toNat else natDecimal i.toNat

/-- VChuPasswordWarning.Encode: the expiry seconds as a decimal string inside
an octet string inside a sequence. -/
def vchuPasswordWarningEncode (i : Int) : ber.Packet :=
  let val := ber.Encode ber.ClassUniversal true ber.TagSequence .none (strBytes ("Control Value"))
  let val := val.AppendChild
    (ber.Encode ber.ClassUniversal false ber.TagOctetString (.vstr (goItoa i))
      (strBytes ("Expire time")))
  Encode (.vchuPasswordWarning i) (some val)

/-- The result entry sub-tree of a Pre or Post Read result encoding: the DN
octet string followed by the sequence of attribute selections. -/
def pprEntry (dn : GoStr) (attrVals : List (GoStr × List GoStr)) : ber.Packet :=
  let entry := ber.Encode ber.ClassUniversal true ber.TagSequence .none (strBytes ("Result Entry"))
  let entry := entry.AppendChild
    (ber.NewString ber.ClassUniversal false ber.TagOctetString dn (strBytes ("Response DN")))
  let attrValsPkt := attrVals.foldl
    (fun acc av =>
      let avPkt := ber.Encode ber.ClassUniversal true ber.TagSequence .none
        (strBytes ("Result Attribute"))
      let avPkt := avPkt.AppendChild
        (ber.NewString ber.ClassUniversal false ber.TagOctetString av.1
          (strBytes ("Result Attribute Name")))
      let avsPkt := av.2.foldl
        (fun acc2 v => acc2.AppendChild
          (ber.NewString ber.ClassUniversal false ber.TagOctetString v
            (strBytes ("Result Attribute Value"))))
        (ber.Encode ber.ClassUniversal true ber.TagSequence .none
          (strBytes ("Result Attribute Values")))
      let avPkt := avPkt.AppendChild avsPkt
      acc.AppendChild avPkt)
    (ber.Encode ber.ClassUniversal true ber.TagSequence .none (strBytes ("Result Attributes")))
  entry.AppendChild attrValsPkt

/-- PrePostRead.Encode: a request encodes the attribute list as a sequence,
a result wraps the entry sub-tree in a primitive octet string whose Data is
written through AppendChild. -/
def prePostReadEncode (isRequest : Bool) (controlOID : GoStr) (critical : Bool)
    (attrs : List GoStr) (dn : GoStr) (attrVals : List (GoStr × List GoStr)) : ber.Packet :=
  let c : Control := .prePostRead isRequest controlOID critical attrs dn attrVals
  if isRequest then
    let val := attrs.foldl
      (fun acc attr => acc.AppendChild
        (ber.NewString ber.ClassUniversal false ber.TagOctetString attr
          (strBytes ("Request Attribute"))))
      (ber.Encode ber.ClassUniversal true ber.TagSequence .none (strBytes ("Control Value")))
    Encode c (some val)
  else
    let entry := pprEntry dn attrVals
    let val := ber.Encode ber.ClassUniversal false ber.TagOctetString .none
      (strBytes ("Control Value"))
    let val := val.AppendChild entry
    Encode c (some val)

/-- The Encode method of the Control interface: UnknownControl returns nil,
every other variant builds its envelope. -/
def ctrlEncode : Control → Option ber.Packet
  | .manageDsaIT b => some (manageDsaITEncode b)
  | .paging cr s k => some (pagingEncode cr s k)
  | .behera e g er es cr => some (beheraEncode e g er es cr)
  | .proxiedAuthorization cr a => some (proxiedAuthorizationEncode cr a)
  | .vchuPasswordMustChange b => some (vchuPasswordMustChangeEncode b)
  | .vchuPasswordWarning i => some (vchuPasswordWarningEncode i)
  | .prePostRead r o cr a d av => some (prePostReadEncode r o cr a d av)
  | .unknown _ _ => none

end controls

/-- Replace the child list of a packet (the model of mutating a child node
through the pointer the Go code holds into the tree). -/
def ber.Packet.setChildren (p : ber.Packet) (ch : List ber.Packet) : ber.Packet :=
  match p with
  | .mk c t g v d _ s => .mk c t g v d ch s

/-- Erase every Description in a packet tree, leaving all other fields. Two
packets with equal erasures differ at most in their labels. -/
def ber.Packet.eraseDesc : ber.Packet → ber.Packet
  | .mk c t g v d ch _ => .mk c t g v d (ch.attach.map fun x => x.1.eraseDesc) []
decreasing_by
  have := List.sizeOf_lt_of_mem x.2
  simp_wf
  omega

/-- The tree the byte reader rebuilds from the Bytes of a packet: the value of
a primitive node is re-read from its content bytes, a constructed node carries
no value, and every description is empty. -/
def ber.Packet.reparse : ber.Packet → ber.Packet
  | .mk cls constructed tag _ data ch _ =>
      if constructed then
        .mk cls true tag .none data (ch.attach.map fun x => x.1.reparse) []
      else .mk cls false tag (ber.readValue cls tag data) data [] []
decreasing_by
  have := List.sizeOf_lt_of_mem x.2
  simp_wf
  omega

/-- Wire well-formedness: the conditions under which Packet.Bytes is an exact
BER encoding the byte reader parses back: aligned class bits, low tag form,
content shorter than 2 to the 63, and the Data of a constructed node agreeing
with the bytes of its children, recursively. -/
def ber.Packet.wfB : ber.Packet → Bool
  | .mk cls constructed tag _ data ch _ =>
      decide (cls % 64 = 0) && decide (cls < 256) && decide (tag < 31) &&
      decide (data.length < 2 ^ 63) &&
      (!constructed || decide (data = (ch.map ber.Packet.Bytes).flatten)) &&
      ch.attach.all fun x => x.1.wfB
decreasing_by
  have := List.sizeOf_lt_of_mem x.2
  simp_wf
  omega

namespace controls

/-- Outcome of running one registered decoder: a control, a returned error,
or a runtime fault (nil dereference, out of range index, failed type
assertion) that the dispatcher will recover from. -/
inductive DecRes where
  | ok (c : Control)
  | err (e : GoErr)
  | fault
deriving DecidableEq

/-- A decoder returns its outcome together with the value packet it may have
relabelled (the Go decoders mutate Description fields through the pointer). -/
structure DecOut where
  res : DecRes
  val : Option ber.Packet

/-- The Decoder function type of the registry. -/
def Decoder : Type := GoStr → Bool → Option ber.Packet → DecOut

/-- decodeManageDsaIT: the wire criticality becomes the flag. -/
def decodeManageDsaIT : Decoder := fun _ c v => ⟨.ok (.manageDsaIT c), v⟩

/-- decodePaging: a nil value faults (len on a nil packet dereferences it);
otherwise require exactly two children with an int64 first child, truncate the
size to uint32 and take the cookie bytes verbatim. -/
def decodePaging : Decoder := fun _ c v =>
  match v with
  | none => ⟨.fault, none⟩
  | some val =>
      match val.children with
      | [c0, c1] =>
          match c0.value with
          | .vint s => ⟨.ok (.paging c ((s % (2 ^ 32 : Int)).toNat) c1.data), some val⟩
          | _ => ⟨.err .invalidControlValue, some val⟩
      | _ => ⟨.err .invalidControlValue, some val⟩

/-- The Go int8 conversion: truncation to the low byte, read as signed. -/
def int8cast (v : Int) : Int := (v + 128) % 256 - 128

/-- The loop body of decodeBehera over the top level children of the value.
Tag 0: index child 0 (fault when absent), parse its Data as int64, label the
wrapper, then assign expire or grace by the nested tag. Tag 1: label, parse
Data as int64, truncate to int8 and resolve the error string. Any other tag
is an error. Returns the outcome and the relabelled children. -/
def beheraLoop (critical : Bool) (e g er : Int) (es : GoStr) :
    List ber.Packet → DecRes × List ber.Packet
  | [] => (.ok (.behera e g er es critical), [])
  | child :: rest =>
      if child.tag = 0 then
        match child.children with
        | [] => (.fault, child :: rest)
        | inner :: innerRest =>
            let child1 := child.setDesc (strBytes ("Warning Packet"))
            match ber.ParseInt64 inner.data with
            | .error _ => (.err .parseIntFailed, child1 :: rest)
            | .ok v =>
                if inner.tag = 0 then
                  let child2 := child1.setChildren
                    (inner.setDesc (strBytes ("Expire Time")) :: innerRest)
                  let (res, rest2) := beheraLoop critical v g er es rest
                  (res, child2 :: rest2)
                else if inner.tag = 1 then
                  let child2 := child1.setChildren
                    (inner.setDesc (strBytes ("Grace Time")) :: innerRest)
                  let (res, rest2) := beheraLoop critical e v er es rest
                  (res, child2 :: rest2)
                else (.err (.invalidWarningTag inner.tag), child1 :: rest)
      else if child.tag = 1 then
        let child1 := child.setDesc (strBytes ("Error Packet"))
        match ber.ParseInt64 child.data with
        | .error _ => (.err .parseIntFailed, child1 :: rest)
        | .ok v =>
            let er2 := int8cast v
            let es2 := BeheraPasswordPolicyErrorMap er2
            let child2 := child1.setDesc (child1.desc ++ strBytes (": ") ++ es2)
            let (res, rest2) := beheraLoop critical e g er2 es2 rest
            (res, child2 :: rest2)
      else (.err (.invalidChildTag child.tag), child :: rest)

/-- decodeBehera: a nil value is the request form and decodes to the
all-sentinel control; otherwise fold the loop over the value children. -/
def decodeBehera : Decoder := fun _ criticality v =>
  match v with
  | none => ⟨.ok (.behera (-1) (-1) (-1) [] criticality), none⟩
  | some pkt =>
      let out := beheraLoop criticality (-1) (-1) (-1) [] pkt.children
      ⟨out.1, some (pkt.setChildren out.2)⟩

/-- decodeProxiedAuthorization: label the value packet and read its raw Data
bytes as the authorization identity; a nil value faults on the label write. -/
def decodeProxiedAuthorization : Decoder := fun _ criticality v =>
  match v with
  | none => ⟨.fault, none⟩
  | some pkt =>
      ⟨.ok (.proxiedAuthorization criticality (ber.DecodeString pkt.data)),
       some (pkt.setDesc (strBytes ("AuthzID")))⟩

/-- strconv.ParseInt with base 10 and 64 bits: optional sign, at least one
digit, digits 0 to 9 only, and the int64 range check. Range and syntax
failures are both non-nil errors to the caller. -/
def goParseInt10 (s : GoStr) : Except Unit Int :=
  match s with
  | [] => .error ()
  | c :: rest =>
      let neg : Bool := c = 45
      let ds : List Nat := if c = 45 ∨ c = 43 then rest else c :: rest
      if ds = [] then .error ()
      else if ds.all (fun d => 48 ≤ d && d ≤ 57) then
        let n : Nat := ds.foldl (fun acc d => acc * 10 + (d - 48)) 0
        if neg then
          if n ≤ 2 ^ 63 then .ok (-(Int.ofNat n)) else .error ()
        else
          if n < 2 ^ 63 then .ok (Int.ofNat n) else .error ()
      else .error ()

/-- decodeVChuPassword: the must-change OID always decodes to true without
touching the value; the warning OID indexes child 0 of the value (faulting on
a nil value or an empty child list), parses its Data as a decimal string and
labels it; any other OID is an error. -/
def decodeVChuPassword : Decoder := fun oid _criticality v =>
  if oid = ControlOIDVChuPasswordMustChange then ⟨.ok (.vchuPasswordMustChange true), v⟩
  else if oid = ControlOIDVChuPasswordWarning then
    match v with
    | none => ⟨.fault, none⟩
    | some pkt =>
        match pkt.children with
        | [] => ⟨.fault, some pkt⟩
        | c0 :: rest =>
            match goParseInt10 (ber.DecodeString c0.data) with
            | .error _ => ⟨.err .vchuParseFailed, some pkt⟩
            | .ok expire =>
                let c0b := c0.setDesc
                  (strBytes ("Password expires in ") ++ goItoa expire ++ strBytes (" seconds"))
                ⟨.ok (.vchuPasswordWarning expire), some (pkt.setChildren (c0b :: rest))⟩
  else ⟨.err .invalidControlPasswd, v⟩

/-- The request branch loop of decodePrePostRead: label each child, then read
its string value; a child without a string value faults after its label was
written. Returns the relabelled children and the attributes when no fault. -/
def pprAttrsLoop : List ber.Packet → List ber.Packet × Option (List GoStr)
  | [] => ([], some [])
  | ch :: rest =>
      let chb := ch.setDesc (strBytes ("Request Attribute"))
      match ch.value with
      | .vstr s =>
          match pprAttrsLoop rest with
          | (rest2, some attrs) => (chb :: rest2, some (s :: attrs))
          | (rest2, none) => (chb :: rest2, none)
      | _ => (chb :: rest, none)

/-- The values loop of the result branch: every node must hold a string. -/
def pprValsLoop : List ber.Packet → Option (List GoStr)
  | [] => some []
  | vp :: rest =>
      match vp.value with
      | .vstr s => (pprValsLoop rest).map (fun vs => s :: vs)
      | _ => none

/-- The attribute selection loop of the result branch: each node needs at
least two children, a string-valued first child and the value list under the
second; anything else is an out of range index or failed assertion, a fault. -/
def pprAvLoop : List ber.Packet → Option (List (GoStr × List GoStr))
  | [] => some []
  | ch :: rest =>
      match ch.children with
      | a :: b :: _ =>
          match a.value with
          | .vstr t =>
              match pprValsLoop b.children with
              | some vs => (pprAvLoop rest).map (fun avs => (t, vs) :: avs)
              | none => none
          | _ => none
      | _ => none

/-- decodePrePostRead: reject foreign OIDs; fault on a nil value; dispatch on
the value tag alone. A sequence is a request whose children are the attribute
strings. An octet string is a result: re-read the Data bytes as a packet, take
the DN from child 0 and the attribute selections from under child 1, faulting
on any shape violation (the re-read entry is a fresh tree, so its relabelling
never touches the input). Any other tag is an error. -/
def decodePrePostRead : Decoder := fun oid c v =>
  if oid = ControlOIDPreRead ∨ oid = ControlOIDPostRead then
    match v with
    | none => ⟨.fault, none⟩
    | some pkt =>
        if pkt.tag = ber.TagSequence then
          match pprAttrsLoop pkt.children with
          | (ch2, some attrs) =>
              ⟨.ok (.prePostRead true oid c attrs [] []), some (pkt.setChildren ch2)⟩
          | (ch2, none) => ⟨.fault, some (pkt.setChildren ch2)⟩
        else if pkt.tag = ber.TagOctetString then
          match ber.DecodePacketErr pkt.data with
          | .error _ => ⟨.err .valueDecodeFailed, some pkt⟩
          | .ok entry =>
              match entry.children with
              | [] => ⟨.fault, some pkt⟩
              | e0 :: erest =>
                  match e0.value with
                  | .vstr dn =>
                      match erest with
                      | [] => ⟨.fault, some pkt⟩
                      | e1 :: _ =>
                          match pprAvLoop e1.children with
                          | some avs =>
                              ⟨.ok (.prePostRead false oid c [] dn avs), some pkt⟩
                          | none => ⟨.fault, some pkt⟩
                  | _ => ⟨.fault, some pkt⟩
        else ⟨.err .invalidTagOnValue, some pkt⟩
  else ⟨.err .invalidOIDForDecoder, v⟩

/-- GetDecoder on the registry as seeded at process start with the eight
built-in decoders. -/
def GetDecoder (oid : GoStr) : Option Decoder :=
  if oid = ControlOIDManageDsaIT then some decodeManageDsaIT
  else if oid = ControlOIDPaging then some decodePaging
  else if oid = ControlOIDBeheraPasswordPolicy then some decodeBehera
  else if oid = ControlOIDProxiedAuthorization then some decodeProxiedAuthorization
  else if oid = ControlOIDVChuPasswordMustChange then some decodeVChuPassword
  else if oid = ControlOIDVChuPasswordWarning then some decodeVChuPassword
  else if oid = ControlOIDPreRead then some decodePrePostRead
  else if oid = ControlOIDPostRead then some decodePrePostRead
  else none

/-- The criticality label Decode writes on the criticality child. -/
def critDesc (b : Bool) : GoStr :=
  strBytes ("Criticality: ") ++ (if b then strBytes ("true") else strBytes ("false"))

/-- Splice the value packet a decoder returned back over the child it aliases
in the Go tree. -/
def spliceValue (pkt : ber.Packet) (vIdx : Option Nat) (v2 : Option ber.Packet) : ber.Packet :=
  match vIdx, v2 with
  | some i, some v => pkt.setChildren (pkt.children.set i v)
  | _, _ => pkt

/-- Relabel child 0 of the envelope, as Decode does after a successful
decode. -/
def setChild0Desc (pkt : ber.Packet) (s : GoStr) : ber.Packet :=
  match pkt.children with
  | [] => pkt
  | c :: r => pkt.setChildren (c.setDesc s :: r)

/-- The tail of Decode after the envelope fields are extracted: registry
lookup, the UnknownControl fallback, the decoder call with the recover
handler that turns a fault into an error, and the OID label on success. -/
def dispatch (oid : GoStr) (crit : Bool) (value : Option ber.Packet)
    (vIdx : Option Nat) (pkt : ber.Packet) : Except GoErr Control × ber.Packet :=
  match GetDecoder oid with
  | none => (.ok (.unknown oid crit), pkt)
  | some d =>
      let out := d oid crit value
      let pkt1 := spliceValue pkt vIdx out.val
      match out.res with
      | .fault => (.error .panicCaught, pkt1)
      | .err e => (.error e, pkt1)
      | .ok c => (.ok c, setChild0Desc pkt1 (strBytes ("Control OID: ") ++ Name c))

/-- The canonical control values: the values a decode can produce, on which
encode and decode are mutually inverse. The Paging size must fit uint32, the
Behera fields must carry at most one warning within int64 with the error and
its string matching the table, a ProxiedAuthorization identity never reaches
the wire so only the empty one survives, VChuPasswordMustChange always decodes
to true, the VChu warning must fit int64, and a Pre or Post Read value must
carry one of its two OIDs with the fields of the opposite form empty and, for
the result form, a wire well formed entry tree. -/
def canonicalB : Control → Bool
  | .manageDsaIT _ => true
  | .paging _ size _ => decide (size < 2 ^ 32)
  | .behera e g er es _ =>
      (decide (e = -1) && decide (g = -1)
        || decide (0 ≤ e) && decide (e < 2 ^ 63) && decide (g = -1)
        || decide (e = -1) && decide (0 ≤ g) && decide (g < 2 ^ 63))
      && (decide (er = -1) && decide (es = [])
        || decide (0 ≤ er) && decide (er ≤ 127)
            && decide (es = BeheraPasswordPolicyErrorMap er))
  | .proxiedAuthorization _ a => decide (a = [])
  | .vchuPasswordMustChange b => b
  | .vchuPasswordWarning i => decide (-(2 ^ 63) ≤ i) && decide (i < 2 ^ 63)
  | .prePostRead r o _ attrs dn avs =>
      (decide (o = ControlOIDPreRead) || decide (o = ControlOIDPostRead))
      && (if r then decide (dn = []) && decide (avs = [])
          else decide (attrs = []) && (pprEntry dn avs).wfB)
  | .unknown _ _ => false

/-- controls.Decode. Reject a non-sequence tag and a child count of 0 or more
than 3 with ErrInvalidControlData, and a first child without a string value
likewise. One child: no criticality, no value. Two children: a boolean second
child is the criticality and there is no value, anything else is the value
with criticality false. Three children: the second child is asserted to be a
boolean, faulting otherwise into the recover handler, and the third is the
value. The function returns the result together with the mutated packet. -/
def Decode (pkt : ber.Packet) : Except GoErr Control × ber.Packet :=
  if pkt.tag ≠ ber.TagSequence then (.error .invalidControlData, pkt)
  else if pkt.children.length = 0 ∨ 3 < pkt.children.length then
    (.error .invalidControlData, pkt)
  else
    match pkt.children with
    | [] => (.error .invalidControlData, pkt)
    | c0 :: _ =>
        match c0.value with
        | .vstr oid =>
            match pkt.children with
            | [_] => dispatch oid false none none pkt
            | [a, c1] =>
                match c1.value with
                | .vbool b =>
                    dispatch oid b none none
                      (pkt.setChildren [a, c1.setDesc (critDesc b)])
                | _ =>
                    let c1b := c1.setDesc (strBytes ("Control Value"))
                    dispatch oid false (some c1b) (some 1) (pkt.setChildren [a, c1b])
            | [a, c1, c2] =>
                match c1.value with
                | .vbool b =>
                    let c2b := c2.setDesc (strBytes ("Control Value"))
                    dispatch oid b (some c2b) (some 2)
                      (pkt.setChildren [a, c1.setDesc (critDesc b), c2b])
                | _ => (.error .panicCaught, pkt)
            | _ => (.error .invalidControlData, pkt)
        | _ => (.error .invalidControlData, pkt)

end controls


/-! Concrete packets used by the claim witnesses. -/

/-- An envelope with an unregistered OID and a boolean second child. -/
def c3PktBool : ber.Packet :=
  ber.Packet.mk 0 true 16 .none []
    [ber.NewString 0 false 4 (strBytes ("1.2.3")) [], ber.NewBoolean 0 false 1 true []] []

/-- An envelope with an unregistered OID and a non-boolean second child. -/
def c3PktVal : ber.Packet :=
  ber.Packet.mk 0 true 16 .none []
    [ber.NewString 0 false 4 (strBytes ("1.2.3")) [], ber.Packet.mk 0 true 16 .none [] [] []] []

/-- A Paging envelope with no value child. -/
def c6AbsentValue : ber.Packet :=
  ber.Packet.mk 0 true 16 .none []
    [ber.NewString 0 false 4 controls.ControlOIDPaging []] []

/-- A Paging envelope whose value has one child instead of two. -/
def c6BadShape : ber.Packet :=
  ber.Packet.mk 0 true 16 .none []
    [ber.NewString 0 false 4 controls.ControlOIDPaging [],
     ber.Packet.mk 0 true 16 .none [] [ber.NewInteger 0 false 2 3 []] []] []

/-- A Behera value packet holding a single error child whose wire integer is
256. -/
def c9Pkt : ber.Packet :=
  ber.Packet.mk 0 true 16 .none [] [ber.Packet.mk 128 false 1 .none [1, 0] [] []] []

namespace controls

/-- Spec-side helper, following the wording of the envelope decode rules: the
criticality of an envelope is false with one child, the boolean second child
when it parses as a boolean, false for a non-boolean second child of two, and
undefined (the assertion fails) for a non-boolean second child of three. -/
def envCriticality (pkt : ber.Packet) : Option Bool :=
  match pkt.children with
  | [_] => some false
  | [_, c1] =>
      match c1.value with
      | .vbool b => some b
      | _ => some false
  | [_, c1, _] =>
      match c1.value with
      | .vbool b => some b
      | _ => none
  | _ => none

/-- Spec-side helper: the value sub-tree of an envelope, when the decode
reaches the dispatch. The outer layer is none when the three child assertion
fails; the inner option is the optional value. -/
def envValue (pkt : ber.Packet) : Option (Option ber.Packet) :=
  match pkt.children with
  | [_] => some none
  | [_, c1] =>
      match c1.value with
      | .vbool _ => some none
      | _ => some (some c1)
  | [_, c1, c2] =>
      match c1.value with
      | .vbool _ => some (some c2)
      | _ => none
  | _ => none

/-- Spec-side helper, following the spec wording for the Pre and Post Read
request form: the list of requested attribute-type strings, one per child,
defined only when every child holds a string value. -/
def specChildStrings : List ber.Packet → Option (List GoStr)
  | [] => some []
  | ch :: rest =>
      match ch.value with
      | .vstr s => (specChildStrings rest).map (fun l => s :: l)
      | _ => none

/-- Spec-side helper, following the spec wording for the Pre and Post Read
result form: attribute selections, each an attribute type string plus the
sequence of its value strings. -/
def specAttrSelections : List ber.Packet → Option (List (GoStr × List GoStr))
  | [] => some []
  | ch :: rest =>
      match ch.children with
      | a :: b :: _ =>
          match a.value with
          | .vstr ty =>
              match specChildStrings b.children with
              | some vs => (specAttrSelections rest).map (fun l => (ty, vs) :: l)
              | none => none
          | _ => none
      | _ => none

/-- Witness packet: a request-form Pre Read value, a sequence of two strings. -/
def c8ReqPkt : ber.Packet :=
  .mk 0 true ber.TagSequence .none []
    [ber.NewString 0 false ber.TagOctetString (strBytes "cn") [],
     ber.NewString 0 false ber.TagOctetString (strBytes "sn") []] []

/-- Witness packet: a value with a tag that is neither sequence nor octet string. -/
def c8BadPkt : ber.Packet := .mk 0 false ber.TagBoolean .none [255] [] []

end controls

namespace ber

@[simp] lemma cls_mk (c : Nat) (t : Bool) (g : Nat) (v : GoValue) (d : List Nat)
    (ch : List Packet) (s : GoStr) : (Packet.mk c t g v d ch s).cls = c := rfl
@[simp] lemma constructed_mk (c : Nat) (t : Bool) (g : Nat) (v : GoValue) (d : List Nat)
    (ch : List Packet) (s : GoStr) : (Packet.mk c t g v d ch s).constructed = t := rfl
@[simp] lemma tag_mk (c : Nat) (t : Bool) (g : Nat) (v : GoValue) (d : List Nat)
    (ch : List Packet) (s : GoStr) : (Packet.mk c t g v d ch s).tag = g := rfl
@[simp] lemma value_mk (c : Nat) (t : Bool) (g : Nat) (v : GoValue) (d : List Nat)
    (ch : List Packet) (s : GoStr) : (Packet.mk c t g v d ch s).value = v := rfl
@[simp] lemma data_mk (c : Nat) (t : Bool) (g : Nat) (v : GoValue) (d : List Nat)
    (ch : List Packet) (s : GoStr) : (Packet.mk c t g v d ch s).data = d := rfl
@[simp] lemma children_mk (c : Nat) (t : Bool) (g : Nat) (v : GoValue) (d : List Nat)
    (ch : List Packet) (s : GoStr) : (Packet.mk c t g v d ch s).children = ch := rfl
@[simp] lemma desc_mk (c : Nat) (t : Bool) (g : Nat) (v : GoValue) (d : List Nat)
    (ch : List Packet) (s : GoStr) : (Packet.mk c t g v d ch s).desc = s := rfl

@[simp] lemma setDesc_mk (c : Nat) (t : Bool) (g : Nat) (v : GoValue) (d : List Nat)
    (ch : List Packet) (s s2 : GoStr) :
    (Packet.mk c t g v d ch s).setDesc s2 = Packet.mk c t g v d ch s2 := rfl
@[simp] lemma setChildren_mk (c : Nat) (t : Bool) (g : Nat) (v : GoValue) (d : List Nat)
    (ch ch2 : List Packet) (s : GoStr) :
    (Packet.mk c t g v d ch s).setChildren ch2 = Packet.mk c t g v d ch2 s := rfl

@[simp] lemma children_AppendChild (p c : Packet) :
    (p.AppendChild c).children = p.children ++ [c] := by cases p <;> rfl
@[simp] lemma value_AppendChild (p c : Packet) :
    (p.AppendChild c).value = p.value := by cases p <;> rfl
@[simp] lemma tag_AppendChild (p c : Packet) :
    (p.AppendChild c).tag = p.tag := by cases p <;> rfl
@[simp] lemma cls_AppendChild (p c : Packet) :
    (p.AppendChild c).cls = p.cls := by cases p <;> rfl
@[simp] lemma constructed_AppendChild (p c : Packet) :
    (p.AppendChild c).constructed = p.constructed := by cases p <;> rfl
@[simp] lemma data_AppendChild (p c : Packet) :
    (p.AppendChild c).data = p.data ++ c.Bytes := by cases p <;> rfl
@[simp] lemma children_Encode (cls : Nat) (t : Bool) (tag : Nat) (v : GoValue) (ds : GoStr) :
    (Encode cls t tag v ds).children = [] := rfl
@[simp] lemma value_Encode (cls : Nat) (t : Bool) (tag : Nat) (v : GoValue) (ds : GoStr) :
    (Encode cls t tag v ds).value = v := rfl
@[simp] lemma tag_Encode (cls : Nat) (t : Bool) (tag : Nat) (v : GoValue) (ds : GoStr) :
    (Encode cls t tag v ds).tag = tag := rfl

@[simp] lemma tag_setDesc (p : Packet) (s : GoStr) : (p.setDesc s).tag = p.tag := by
  cases p <;> rfl
@[simp] lemma value_setDesc (p : Packet) (s : GoStr) : (p.setDesc s).value = p.value := by
  cases p <;> rfl
@[simp] lemma data_setDesc (p : Packet) (s : GoStr) : (p.setDesc s).data = p.data := by
  cases p <;> rfl
@[simp] lemma children_setDesc (p : Packet) (s : GoStr) :
    (p.setDesc s).children = p.children := by cases p <;> rfl
@[simp] lemma cls_setDesc (p : Packet) (s : GoStr) : (p.setDesc s).cls = p.cls := by
  cases p <;> rfl
@[simp] lemma constructed_setDesc (p : Packet) (s : GoStr) :
    (p.setDesc s).constructed = p.constructed := by cases p <;> rfl

end ber

namespace ber

lemma beBytes_length (i : Int) : ∀ n, (beBytes i n).length = n := by
  intro n
  induction n with
  | zero => rfl
  | succ k ih => simp [beBytes, ih]

lemma foldl_acc_shift (bs : List Nat) : ∀ acc : Nat,
    bs.foldl (fun a b => a * 256 + b) acc =
      acc * 256 ^ bs.length + bs.foldl (fun a b => a * 256 + b) 0 := by
  induction bs with
  | nil => simp
  | cons b rest ih =>
      intro acc
      simp only [List.foldl_cons, List.length_cons]
      rw [ih (acc * 256 + b), ih (0 * 256 + b)]
      ring

lemma beVal_cons (b : Nat) (rest : List Nat) :
    beVal (b :: rest) = b * 256 ^ rest.length + beVal rest := by
  simp only [beVal, List.foldl_cons]
  rw [foldl_acc_shift rest (0 * 256 + b)]
  ring_nf

lemma ediv_ediv_pos (i m n : Int) (hm : 0 < m) (hn : 0 < n) : i / m / n = i / (m * n) := by
  have hmn : (0 : Int) < m * n := by positivity
  have h1 : i % (m * n) + (m * n) * (i / (m * n)) = i := Int.emod_add_ediv i (m * n)
  have hr0 : 0 ≤ i % (m * n) := Int.emod_nonneg i (by positivity)
  have hrlt : i % (m * n) < m * n := Int.emod_lt_of_pos i hmn
  set q := i / (m * n) with hq
  set r := i % (m * n) with hr
  have h2 : i / m = r / m + n * q := by
    conv_lhs => rw [← h1]
    rw [show r + m * n * q = r + m * (n * q) by ring]
    rw [Int.add_mul_ediv_left r (n * q) (ne_of_gt hm)]
  rw [h2]
  have hrm0 : 0 ≤ r / m := Int.ediv_nonneg hr0 (le_of_lt hm)
  have hrmlt : r / m < n := by
    rw [Int.ediv_lt_iff_lt_mul hm]
    linarith
  rw [show r / m + n * q = r / m + q * n by ring]
  rw [Int.add_mul_ediv_right (r / m) q (ne_of_gt hn)]
  rw [Int.ediv_eq_zero_of_lt hrm0 hrmlt]
  ring

lemma beVal_beBytes (i : Int) : ∀ n, (beVal (beBytes i n) : Int) = i % 2 ^ (8 * n) := by
  intro n
  induction n with
  | zero => simp [beBytes, beVal]
  | succ k ih =>
      have hm : (0 : Int) < 2 ^ (8 * k) := by positivity
      have hcast : ((beByte i k : Nat) : Int) = (i / 2 ^ (8 * k)) % 256 :=
        Int.toNat_of_nonneg (Int.emod_nonneg _ (by norm_num))
      rw [show beBytes i (k + 1) = beByte i k :: beBytes i k from rfl, beVal_cons,
        beBytes_length]
      push_cast
      rw [hcast, ih]
      have h256 : ((256 : Int)) ^ k = 2 ^ (8 * k) := by
        rw [show (256 : Int) = 2 ^ 8 by norm_num, ← pow_mul]
      rw [h256]
      have hdd : i / 2 ^ (8 * k) / 256 = i / (2 ^ (8 * k) * 256) :=
        ediv_ediv_pos i _ 256 hm (by norm_num)
      have hbig : (2 : Int) ^ (8 * (k + 1)) = 2 ^ (8 * k) * 256 := by
        rw [show 8 * (k + 1) = 8 * k + 8 by omega, pow_add]
        norm_num
      rw [hbig]
      rw [Int.emod_def (i / 2 ^ (8 * k)) 256, Int.emod_def i (2 ^ (8 * k)),
        Int.emod_def i (2 ^ (8 * k) * 256), hdd]
      ring

lemma int64LengthAux_pos (fuel : Nat) (i : Int) : 1 ≤ int64LengthAux fuel i := by
  cases fuel with
  | zero => simp [int64LengthAux]
  | succ f => rw [int64LengthAux]; split <;> omega

lemma int64LengthAux_bound : ∀ (fuel : Nat) (i : Int),
    -(2 ^ (8 * fuel + 7)) ≤ i → i < 2 ^ (8 * fuel + 7) →
    -(2 ^ (8 * int64LengthAux fuel i - 1)) ≤ i ∧ i < 2 ^ (8 * int64LengthAux fuel i - 1) := by
  intro fuel
  induction fuel with
  | zero =>
      intro i h1 h2
      simpa [int64LengthAux] using ⟨h1, h2⟩
  | succ f ih =>
      intro i h1 h2
      by_cases hc : 127 < i ∨ i < -128
      · rw [int64LengthAux, if_pos hc]
        have hpow : (2 : Int) ^ (8 * (f + 1) + 7) = 2 ^ (8 * f + 7) * 256 := by
          rw [show 8 * (f + 1) + 7 = (8 * f + 7) + 8 by omega, pow_add]
          norm_num
        have hd1 : -(2 ^ (8 * f + 7)) ≤ i / 256 ∧ i / 256 < 2 ^ (8 * f + 7) := by
          rw [hpow] at h1 h2
          generalize (2 : Int) ^ (8 * f + 7) = t at h1 h2 ⊢
          omega
        obtain ⟨b1, b2⟩ := ih (i / 256) hd1.1 hd1.2
        have hL : 1 ≤ int64LengthAux f (i / 256) := int64LengthAux_pos f (i / 256)
        generalize hLdef : int64LengthAux f (i / 256) = L at b1 b2 hL
        have hexp : (2 : Int) ^ (8 * (1 + L) - 1) = 2 ^ (8 * L - 1) * 256 := by
          rw [show 8 * (1 + L) - 1 = (8 * L - 1) + 8 by omega, pow_add]
          norm_num
        rw [hexp]
        generalize (2 : Int) ^ (8 * L - 1) = t at b1 b2 ⊢
        omega
      · rw [int64LengthAux, if_neg hc]
        norm_num
        omega

lemma int64LengthAux_le : ∀ (fuel n : Nat) (i : Int), 1 ≤ n →
    -(2 ^ (8 * n - 1)) ≤ i → i < 2 ^ (8 * n - 1) → int64LengthAux fuel i ≤ n := by
  intro fuel
  induction fuel with
  | zero => intro n i h1 _ _; simpa [int64LengthAux] using h1
  | succ f ih =>
      intro n i hn h1 h2
      rw [int64LengthAux]
      split
      · rename_i hc
        have hn2 : 2 ≤ n := by
          by_contra hlt
          have : n = 1 := by omega
          subst this
          norm_num at h1 h2
          omega
        have hpow : (2 : Int) ^ (8 * n - 1) = 2 ^ (8 * (n - 1) - 1) * 256 := by
          rw [show 8 * n - 1 = (8 * (n - 1) - 1) + 8 by omega, pow_add]
          norm_num
        have hd : -(2 ^ (8 * (n - 1) - 1)) ≤ i / 256 ∧ i / 256 < 2 ^ (8 * (n - 1) - 1) := by
          rw [hpow] at h1 h2
          generalize (2 : Int) ^ (8 * (n - 1) - 1) = t at h1 h2 ⊢
          omega
        have := ih (n - 1) (i / 256) (by omega) hd.1 hd.2
        omega
      · omega

lemma parseInt64_encodeInteger (i : Int) (h1 : -(2 ^ 63) ≤ i) (h2 : i < 2 ^ 63) :
    ParseInt64 (encodeInteger i) = .ok i := by
  have hle : int64Length i ≤ 8 :=
    int64LengthAux_le 16 8 i (by norm_num) (by norm_num at h1 ⊢; omega)
      (by norm_num at h2 ⊢; omega)
  have hbd := int64LengthAux_bound 16 i
    (by have : (2:Int)^63 ≤ 2^(8*16+7) := by norm_num
        omega)
    (by have : (2:Int)^63 ≤ 2^(8*16+7) := by norm_num
        omega)
  have hpos : 1 ≤ int64Length i := int64LengthAux_pos 16 i
  obtain ⟨k, hk⟩ : ∃ k, int64Length i = k + 1 := ⟨int64Length i - 1, by omega⟩
  unfold encodeInteger
  have hk2 : int64LengthAux 16 i = k + 1 := hk
  rw [hk2] at hbd
  rw [hk] at hle ⊢
  obtain ⟨b1, b2⟩ := hbd
  have hlen : (beBytes i (k + 1)).length = k + 1 := beBytes_length i (k + 1)
  have hval : (beVal (beBytes i (k + 1)) : Int) = i % 2 ^ (8 * (k + 1)) := beVal_beBytes i (k + 1)
  have hexp1 : 8 * (k + 1) - 1 = 8 * k + 7 := by omega
  rw [hexp1] at b1 b2
  have hsplit : (2 : Int) ^ (8 * (k + 1)) = 2 ^ (8 * k + 7) * 2 := by
    rw [show 8 * (k + 1) = (8 * k + 7) + 1 by omega, pow_add]
    norm_num
  have hm : (0 : Int) < 2 ^ (8 * k) := by positivity
  have hsplit2 : (2 : Int) ^ (8 * k + 7) = 2 ^ (8 * k) * 128 := by
    rw [show 8 * k + 7 = 8 * k + 7 from rfl, pow_add]
    norm_num
  have hb0 : ((beByte i k : Nat) : Int) = (i / 2 ^ (8 * k)) % 256 :=
    Int.toNat_of_nonneg (Int.emod_nonneg _ (by norm_num))
  unfold ParseInt64
  rw [show beBytes i (k + 1) = beByte i k :: beBytes i k from rfl]
  simp only [List.length_cons, beBytes_length]
  rw [if_neg (by omega)]
  by_cases hneg : 0 ≤ i
  · have hq0 : 0 ≤ i / 2 ^ (8 * k) := Int.ediv_nonneg hneg (le_of_lt hm)
    have hqlt : i / 2 ^ (8 * k) < 128 := by
      rw [Int.ediv_lt_iff_lt_mul hm]
      rw [hsplit2] at b2
      linarith
    have hmod : (i / 2 ^ (8 * k)) % 256 = i / 2 ^ (8 * k) := Int.emod_eq_of_lt hq0 (by omega)
    have hb0small : beByte i k < 128 := by
      have : ((beByte i k : Nat) : Int) < 128 := by rw [hb0, hmod]; omega
      exact_mod_cast this
    rw [if_neg (by omega)]
    have : i % 2 ^ (8 * (k + 1)) = i := by
      apply Int.emod_eq_of_lt hneg
      rw [hsplit]
      linarith
    simp only [Int.ofNat_eq_coe]
    rw [show beVal (beByte i k :: beBytes i k) = beVal (beBytes i (k + 1)) from rfl]
    rw [hval, this]
  · push_neg at hneg
    have hq0 : i / 2 ^ (8 * k) < 0 := Int.ediv_neg' hneg hm
    have hqge : -128 ≤ i / 2 ^ (8 * k) := by
      rw [hsplit2] at b1
      rw [Int.le_ediv_iff_mul_le hm]
      linarith
    have hmod : (i / 2 ^ (8 * k)) % 256 = i / 2 ^ (8 * k) + 256 := by
      rw [Int.emod_def]
      have : i / 2 ^ (8 * k) / 256 = -1 := by
        have hlt : i / 2 ^ (8 * k) < 0 := hq0
        omega
      rw [this]
      ring
    have hb0big : 128 ≤ beByte i k := by
      have : (128 : Int) ≤ ((beByte i k : Nat) : Int) := by rw [hb0, hmod]; omega
      exact_mod_cast this
    rw [if_pos (by omega)]
    have hmodneg : i % 2 ^ (8 * (k + 1)) = i + 2 ^ (8 * (k + 1)) := by
      have hp7 : (0 : Int) < 2 ^ (8 * k + 7) := by positivity
      have hlow : -(2 ^ (8 * (k + 1))) ≤ i := by
        rw [hsplit]
        linarith
      calc i % 2 ^ (8 * (k + 1))
          = (i + 2 ^ (8 * (k + 1)) * 1) % 2 ^ (8 * (k + 1)) := by
            rw [Int.add_mul_emod_self_left]
        _ = i + 2 ^ (8 * (k + 1)) := by
            rw [mul_one]
            exact Int.emod_eq_of_lt (by linarith) (by linarith)
    simp only [Int.ofNat_eq_coe]
    rw [show beVal (beByte i k :: beBytes i k) = beVal (beBytes i (k + 1)) from rfl]
    rw [hval, hmodneg]
    ring_nf

/-! ### Length octets round trip -/

lemma reparse_mk (c : Nat) (t : Bool) (g : Nat) (v : GoValue) (d : List Nat)
    (ch : List Packet) (s : GoStr) :
    (Packet.mk c t g v d ch s).reparse =
      if t then Packet.mk c true g .none d (ch.map Packet.reparse) []
      else Packet.mk c false g (readValue c g d) d [] [] := by
  unfold ber.Packet.reparse
  cases t
  · rfl
  · simp only [if_pos]
    congr 1
    simp

lemma wfB_mk (c : Nat) (t : Bool) (g : Nat) (v : GoValue) (d : List Nat)
    (ch : List Packet) (s : GoStr) :
    (Packet.mk c t g v d ch s).wfB =
      (decide (c % 64 = 0) && decide (c < 256) && decide (g < 31) &&
       decide (d.length < 2 ^ 63) &&
       (!t || decide (d = (ch.map Packet.Bytes).flatten)) &&
       ch.all Packet.wfB) := by
  unfold ber.Packet.wfB
  congr 1
  exact Bool.coe_iff_coe.mp (by simp [List.all_eq_true])

lemma wfB_mk_iff (c : Nat) (t : Bool) (g : Nat) (v : GoValue) (d : List Nat)
    (ch : List Packet) (s : GoStr) :
    (Packet.mk c t g v d ch s).wfB = true ↔
      (c % 64 = 0 ∧ c < 256 ∧ g < 31 ∧ d.length < 2 ^ 63 ∧
        (t = true → d = (ch.map Packet.Bytes).flatten) ∧
        ∀ x ∈ ch, x.wfB = true) := by
  rw [wfB_mk]
  cases t <;> simp [List.all_eq_true, and_assoc]

lemma Bytes_reparse (p : Packet) : p.reparse.Bytes = p.Bytes := by
  cases p with
  | mk c t g v d ch s =>
      rw [reparse_mk]
      cases t <;> simp [Packet.Bytes]

lemma uint64LengthAux_ge_one : ∀ (fuel n : Nat), 1 ≤ uint64LengthAux fuel n := by
  intro fuel n
  cases fuel with
  | zero => simp [uint64LengthAux]
  | succ k =>
      rw [uint64LengthAux]
      split <;> omega

lemma uint64LengthAux_le_fuel : ∀ (fuel n : Nat), uint64LengthAux fuel n ≤ fuel + 1 := by
  intro fuel
  induction fuel with
  | zero => intro n; simp [uint64LengthAux]
  | succ k ih =>
      intro n
      rw [uint64LengthAux]
      split
      · have := ih (n / 256)
        omega
      · omega

lemma uint64LengthAux_bound : ∀ (fuel n : Nat), n < 256 ^ fuel →
    n < 256 ^ uint64LengthAux fuel n := by
  intro fuel
  induction fuel with
  | zero =>
      intro n h
      simp only [pow_zero, Nat.lt_one_iff] at h
      subst h
      simp [uint64LengthAux]
  | succ k ih =>
      intro n h
      rw [uint64LengthAux]
      split
      · have hdiv : n / 256 < 256 ^ k := by
          rw [Nat.div_lt_iff_lt_mul (by norm_num)]
          calc n < 256 ^ (k + 1) := h
            _ = 256 ^ k * 256 := by ring
        have hrec := ih (n / 256) hdiv
        have hstep : n < 256 * (n / 256 + 1) := by omega
        calc n < 256 * (n / 256 + 1) := hstep
          _ ≤ 256 * 256 ^ uint64LengthAux k (n / 256) := by
              have : n / 256 + 1 ≤ 256 ^ uint64LengthAux k (n / 256) := hrec
              exact Nat.mul_le_mul_left 256 this
          _ = 256 ^ (1 + uint64LengthAux k (n / 256)) := by
              rw [pow_add, pow_one]
      · rename_i hle
        have : n < 256 := by omega
        simpa [pow_one] using this

lemma beVal_encodeUnsignedInteger (n : Nat) (h : n < 2 ^ 63) :
    beVal (encodeUnsignedInteger n) = n := by
  unfold encodeUnsignedInteger
  simp only [Int.ofNat_eq_coe]
  have hb := beVal_beBytes (n : Int) (uint64Length n)
  have hbd : n < 256 ^ uint64Length n :=
    uint64LengthAux_bound 16 n (lt_of_lt_of_le h (by norm_num))
  have hn : ((n : Int)) < 2 ^ (8 * uint64Length n) := by
    have h256 : ((256 : Int)) ^ uint64Length n = 2 ^ (8 * uint64Length n) := by
      rw [show (256 : Int) = 2 ^ 8 by norm_num, ← pow_mul]
    rw [← h256]
    exact_mod_cast hbd
  have hmod : ((n : Int)) % 2 ^ (8 * uint64Length n) = (n : Int) :=
    Int.emod_eq_of_lt (by positivity) hn
  rw [hmod] at hb
  exact_mod_cast hb

lemma encodeUnsignedInteger_length (n : Nat) :
    (encodeUnsignedInteger n).length = uint64Length n := by
  unfold encodeUnsignedInteger
  exact beBytes_length _ _

lemma uint64LengthAux_small (fuel n : Nat) (h : n ≤ 255) :
    uint64LengthAux (fuel + 1) n = 1 := by
  rw [uint64LengthAux, if_neg (by omega)]

lemma encodeLength_short (n : Nat) (h : n ≤ 127) : encodeLength n = [n] := by
  unfold encodeLength
  rw [if_neg (by omega)]
  unfold encodeUnsignedInteger uint64Length
  rw [show (16 : Nat) = 15 + 1 from rfl, uint64LengthAux_small 15 n (by omega)]
  simp only [Int.ofNat_eq_coe]
  show [beByte (n : Int) 0] = [n]
  unfold beByte
  congr 1
  have h1 : ((n : Int)) / 2 ^ (8 * 0) % 256 = (n : Int) := by
    simp only [mul_zero, pow_zero, Int.ediv_one]
    exact Int.emod_eq_of_lt (by positivity) (by exact_mod_cast (by omega : n < 256))
  rw [h1]
  simp

lemma readLengthBytes_append : ∀ (bs rest : List Nat) (acc : Nat),
    readLengthBytes bs.length (bs ++ rest) acc =
      some (bs.foldl (fun a b => a * 256 + b) acc, rest) := by
  intro bs
  induction bs with
  | nil => intro rest acc; rfl
  | cons b bs ih =>
      intro rest acc
      show readLengthBytes (bs.length + 1) (b :: (bs ++ rest)) acc = _
      rw [readLengthBytes]
      exact ih rest (acc * 256 + b)

lemma readLength_encodeLength (n : Nat) (h : n < 2 ^ 63) (rest : List Nat) :
    readLength (encodeLength n ++ rest) =
      some (n, (encodeLength n).length, rest) := by
  by_cases hs : n ≤ 127
  · rw [encodeLength_short n hs]
    show readLength (n :: rest) = some (n, 1, rest)
    rw [readLength, if_neg (by omega), if_neg (by omega), if_pos (by omega)]
  · have henc : encodeLength n = (128 + (encodeUnsignedInteger n).length)
        :: encodeUnsignedInteger n := by
      unfold encodeLength
      rw [if_pos (by omega)]
    have hL1 : 1 ≤ (encodeUnsignedInteger n).length := by
      rw [encodeUnsignedInteger_length]
      exact uint64LengthAux_ge_one 16 n
    have hL2 : (encodeUnsignedInteger n).length ≤ 17 := by
      rw [encodeUnsignedInteger_length]
      exact uint64LengthAux_le_fuel 16 n
    rw [henc]
    show readLength ((128 + (encodeUnsignedInteger n).length)
        :: (encodeUnsignedInteger n ++ rest)) = _
    rw [readLength, if_neg (by omega), if_neg (by omega), if_neg (by omega)]
    rw [show 128 + (encodeUnsignedInteger n).length - 128
        = (encodeUnsignedInteger n).length from by omega]
    rw [readLengthBytes_append]
    rw [show List.foldl (fun a b => a * 256 + b) 0 (encodeUnsignedInteger n) = n from
      beVal_encodeUnsignedInteger n h]
    simp only [List.length_cons]
    rw [show 1 + (encodeUnsignedInteger n).length
        = (encodeUnsignedInteger n).length + 1 from by omega]

end ber

-- sanity checks of the integer codec on concrete values
example : ber.encodeInteger 0 = [0] := by decide
example : ber.encodeInteger 127 = [127] := by decide
example : ber.encodeInteger 128 = [0, 128] := by decide
example : ber.encodeInteger 256 = [1, 0] := by decide
example : ber.encodeInteger (-1) = [255] := by decide
example : ber.encodeInteger (-129) = [255, 127] := by decide
example : ber.ParseInt64 [1, 0] = .ok 256 := rfl
example : ber.ParseInt64 [255] = .ok (-1) := rfl
example : ber.ParseInt64 [255, 127] = .ok (-129) := rfl
example : ber.encodeUnsignedInteger 0 = [0] := by decide
example : ber.encodeUnsignedInteger 300 = [1, 44] := by decide


/-! ## Claim theorems -/

section Claims

open controls

/-- C2: for every input packet whose child count is 0 or greater than 3, and
for every input packet whose first child does not hold a string value, Decode
returns ErrInvalidControlData and no control, regardless of OID. -/
theorem c2_decode_rejects_bad_envelope (pkt : ber.Packet) :
    (pkt.children.length = 0 ∨ 3 < pkt.children.length →
       Decode pkt = (.error .invalidControlData, pkt))
    ∧ (∀ c0 rest, pkt.children = c0 :: rest → (∀ s, c0.value ≠ .vstr s) →
       Decode pkt = (.error .invalidControlData, pkt)) := by
  obtain ⟨cl, t, g, v, d, ch, ds⟩ := pkt
  constructor
  · intro hlen
    simp only [ber.children_mk] at hlen
    by_cases hg : g = ber.TagSequence
    · subst hg
      rcases hlen with h0 | h4
      · rw [List.length_eq_zero] at h0
        subst h0
        simp [Decode]
      · match ch, h4 with
        | a :: b :: c :: e :: rest, _ => simp [Decode]
    · simp [Decode, hg]
  · intro c0 rest hch hval
    simp only [ber.children_mk] at hch
    subst hch
    by_cases hg : g = ber.TagSequence
    · subst hg
      match rest with
      | [] =>
          cases hv : c0.value <;> simp [Decode, hv]
          case vstr s => exact absurd hv (hval s)
      | [b] =>
          cases hv : c0.value <;> simp [Decode, hv]
          case vstr s => exact absurd hv (hval s)
      | [b, c] =>
          cases hv : c0.value <;> simp [Decode, hv]
          case vstr s => exact absurd hv (hval s)
      | a :: b :: c :: rest2 => simp [Decode]
    · simp [Decode, hg]


/-- C2 witness: a childless sequence packet and a packet whose first child
holds an integer are both rejected with ErrInvalidControlData. -/
theorem c2_witness :
    Decode (ber.Packet.mk 0 true 16 .none [] [] []) =
      (.error .invalidControlData, ber.Packet.mk 0 true 16 .none [] [] [])
    ∧ Decode (ber.Packet.mk 0 true 16 .none []
        [ber.NewInteger 0 false 2 7 []] []) =
      (.error .invalidControlData,
        ber.Packet.mk 0 true 16 .none [] [ber.NewInteger 0 false 2 7 []] []) := by
  constructor
  · exact (c2_decode_rejects_bad_envelope (ber.Packet.mk 0 true 16 .none [] [] [])).1
      (Or.inl rfl)
  · exact (c2_decode_rejects_bad_envelope
      (ber.Packet.mk 0 true 16 .none [] [ber.NewInteger 0 false 2 7 []] [])).2
      (ber.NewInteger 0 false 2 7 []) [] rfl (by intro s h; cases h)

/-- C3: for every envelope packet with exactly two children, Decode treats a
boolean second child as the criticality with no value handed to the dispatch,
and any other second child as the control value with criticality false. -/
theorem c3_two_children_disambiguation (pkt : ber.Packet) (a c1 : ber.Packet) (oid : GoStr)
    (htag : pkt.tag = ber.TagSequence) (hch : pkt.children = [a, c1])
    (hoid : a.value = .vstr oid) :
    (∀ b, c1.value = .vbool b →
       Decode pkt = dispatch oid b none none (pkt.setChildren [a, c1.setDesc (critDesc b)]))
    ∧ ((∀ b, c1.value ≠ .vbool b) →
       Decode pkt = dispatch oid false (some (c1.setDesc (strBytes ("Control Value"))))
         (some 1) (pkt.setChildren [a, c1.setDesc (strBytes ("Control Value"))])) := by
  obtain ⟨cl, t, g, v, d, ch, ds⟩ := pkt
  simp only [ber.tag_mk] at htag
  simp only [ber.children_mk] at hch
  subst htag hch
  constructor
  · intro b hb
    simp [Decode, hoid, hb]
  · intro hnb
    cases hv : c1.value
    case vbool b => exact absurd hv (hnb b)
    all_goals simp [Decode, hoid, hv]

/-- C3 witness: the two-children disambiguation at concrete envelopes, one
with a boolean second child and one with a sequence second child. -/
theorem c3_witness :
    Decode c3PktBool = dispatch (strBytes ("1.2.3")) true none none
      (c3PktBool.setChildren
        [ber.NewString 0 false 4 (strBytes ("1.2.3")) [],
         (ber.NewBoolean 0 false 1 true []).setDesc (critDesc true)])
    ∧ Decode c3PktVal = dispatch (strBytes ("1.2.3")) false
      (some ((ber.Packet.mk 0 true 16 .none [] [] []).setDesc (strBytes ("Control Value"))))
      (some 1)
      (c3PktVal.setChildren
        [ber.NewString 0 false 4 (strBytes ("1.2.3")) [],
         (ber.Packet.mk 0 true 16 .none [] [] []).setDesc (strBytes ("Control Value"))]) := by
  constructor
  · exact (c3_two_children_disambiguation c3PktBool
      (ber.NewString 0 false 4 (strBytes ("1.2.3")) [])
      (ber.NewBoolean 0 false 1 true []) (strBytes ("1.2.3")) rfl rfl rfl).1 true rfl
  · exact (c3_two_children_disambiguation c3PktVal
      (ber.NewString 0 false 4 (strBytes ("1.2.3")) [])
      (ber.Packet.mk 0 true 16 .none [] [] []) (strBytes ("1.2.3")) rfl rfl rfl).2
      (by intro b h; cases h)

/-- C4: Decode is total, returning a control or an error for every packet,
and the dispatch converts a decoder fault into an error result instead of
letting it escape. -/
theorem c4_no_crash_propagation :
    (∀ pkt : ber.Packet,
       (∃ c q, Decode pkt = (.ok c, q)) ∨ (∃ e q, Decode pkt = (.error e, q)))
    ∧ (∀ (oid : GoStr) (crit : Bool) (value : Option ber.Packet)
         (vIdx : Option Nat) (pkt : ber.Packet) (d : Decoder),
       GetDecoder oid = some d → (d oid crit value).res = .fault →
       (dispatch oid crit value vIdx pkt).1 = .error .panicCaught) := by
  constructor
  · intro pkt
    match h : Decode pkt with
    | (.ok c, q) => exact Or.inl ⟨c, q, rfl⟩
    | (.error e, q) => exact Or.inr ⟨e, q, rfl⟩
  · intro oid crit value vIdx pkt d hreg hres
    simp [dispatch, hreg, hres]

/-- C4 witness: the VChu warning decoder faults on a value with no children
and the dispatch reports the recovered error. -/
theorem c4_witness :
    (dispatch controls.ControlOIDVChuPasswordWarning false
       (some (ber.Packet.mk 0 true 16 .none [] [] [])) none
       (ber.Packet.mk 0 true 16 .none [] [] [])).1 = .error .panicCaught := by
  exact c4_no_crash_propagation.2 _ _ _ _ _ decodeVChuPassword rfl rfl

/-- C5: a well-formed envelope whose OID has no registered decoder decodes to
an UnknownControl carrying the OID and the envelope criticality, with no
error; its OID and Criticality methods return exactly those. -/
theorem c5_unknown_oid (pkt : ber.Packet) (c0 : ber.Packet) (rest : List ber.Packet)
    (oid : GoStr) (crit : Bool)
    (htag : pkt.tag = ber.TagSequence) (hch : pkt.children = c0 :: rest)
    (hoid : c0.value = .vstr oid) (hreg : GetDecoder oid = none)
    (hcrit : envCriticality pkt = some crit) :
    (Decode pkt).1 = .ok (.unknown oid crit)
    ∧ OID (.unknown oid crit) = oid ∧ Criticality (.unknown oid crit) = crit := by
  refine ⟨?_, rfl, rfl⟩
  obtain ⟨cl, t, g, v, d, ch, ds⟩ := pkt
  simp only [ber.tag_mk] at htag
  simp only [ber.children_mk] at hch
  subst htag
  subst hch
  rcases rest with _ | ⟨c1, _ | ⟨c2, _ | ⟨c3, r3⟩⟩⟩
  · simp only [envCriticality, ber.children_mk, Option.some.injEq] at hcrit
    subst hcrit
    simp [Decode, hoid, dispatch, hreg]
  · cases hv : c1.value
    case vbool b =>
      simp only [envCriticality, ber.children_mk, hv, Option.some.injEq] at hcrit
      subst hcrit
      simp [Decode, hoid, hv, dispatch, hreg]
    all_goals
      simp only [envCriticality, ber.children_mk, hv, Option.some.injEq] at hcrit
    all_goals subst hcrit
    all_goals simp [Decode, hoid, hv, dispatch, hreg]
  · cases hv : c1.value
    case vbool b =>
      simp only [envCriticality, ber.children_mk, hv, Option.some.injEq] at hcrit
      subst hcrit
      simp [Decode, hoid, hv, dispatch, hreg]
    all_goals simp only [envCriticality, ber.children_mk, hv] at hcrit
    all_goals exact Option.noConfusion hcrit
  · simp only [envCriticality, ber.children_mk] at hcrit
    exact Option.noConfusion hcrit

/-- C5 witness: an unregistered OID with a criticality child decodes to the
matching UnknownControl. -/
theorem c5_witness :
    (Decode (ber.Packet.mk 0 true 16 .none []
        [ber.NewString 0 false 4 (strBytes ("9.9.9")) [],
         ber.NewBoolean 0 false 1 true []] [])).1 =
      .ok (.unknown (strBytes ("9.9.9")) true)
    ∧ OID (.unknown (strBytes ("9.9.9")) true) = strBytes ("9.9.9")
    ∧ Criticality (.unknown (strBytes ("9.9.9")) true) = true := by
  exact c5_unknown_oid (ber.Packet.mk 0 true 16 .none []
      [ber.NewString 0 false 4 (strBytes ("9.9.9")) [],
       ber.NewBoolean 0 false 1 true []] [])
    (ber.NewString 0 false 4 (strBytes ("9.9.9")) [])
    [ber.NewBoolean 0 false 1 true []]
    (strBytes ("9.9.9")) true rfl rfl rfl rfl rfl

/-- A registered decoder returning an error surfaces it from the dispatch. -/
lemma dispatch_err (oid : GoStr) (crit : Bool) (value : Option ber.Packet)
    (vIdx : Option Nat) (pkt : ber.Packet) (d : Decoder) (e : GoErr)
    (hreg : GetDecoder oid = some d) (hres : (d oid crit value).res = .err e) :
    (dispatch oid crit value vIdx pkt).1 = .error e := by
  simp [dispatch, hreg, hres]

/-- A registered decoder faulting surfaces the recovered error. -/
lemma dispatch_fault (oid : GoStr) (crit : Bool) (value : Option ber.Packet)
    (vIdx : Option Nat) (pkt : ber.Packet) (d : Decoder)
    (hreg : GetDecoder oid = some d) (hres : (d oid crit value).res = .fault) :
    (dispatch oid crit value vIdx pkt).1 = .error .panicCaught := by
  simp [dispatch, hreg, hres]

/-- decodePaging rejects every present value that is not a two child sequence
with an int64 first child. -/
lemma decodePaging_err (oid : GoStr) (c : Bool) (v : ber.Packet)
    (h : ¬ ∃ a b i, v.children = [a, b] ∧ a.value = ber.GoValue.vint i) :
    (decodePaging oid c (some v)).res = .err .invalidControlValue := by
  rcases hch : v.children with _ | ⟨a, _ | ⟨b, _ | ⟨c2, r2⟩⟩⟩
  · simp [decodePaging, hch]
  · simp [decodePaging, hch]
  · cases hv : a.value
    case vint i => exact absurd ⟨a, b, i, hch, hv⟩ h
    all_goals simp [decodePaging, hch, hv]
  · simp [decodePaging, hch]

/-- C6 counterexample: a Paging envelope with an absent value makes the
decoder fault, so Decode reports the recovered panic error, not
ErrInvalidControlValue as the claim states for all shapes. -/
theorem c6_counterexample :
    (Decode c6AbsentValue).1 = .error .panicCaught
    ∧ GoErr.panicCaught ≠ GoErr.invalidControlValue := by
  exact ⟨rfl, by decide⟩

/-- C6 amended: with a present value of the wrong shape, decoding a Paging
envelope fails with ErrInvalidControlValue; with an absent value the decoder
faults on the nil packet and decoding fails with the recovered panic error
instead. -/
theorem c6_paging_value_errors (pkt c0 : ber.Packet) (rest : List ber.Packet)
    (htag : pkt.tag = ber.TagSequence) (hch : pkt.children = c0 :: rest)
    (hoid : c0.value = .vstr ControlOIDPaging) :
    (∀ v, envValue pkt = some (some v) →
       ¬ (∃ a b i, v.children = [a, b] ∧ a.value = ber.GoValue.vint i) →
       (Decode pkt).1 = .error .invalidControlValue)
    ∧ (envValue pkt = some none → (Decode pkt).1 = .error .panicCaught) := by
  obtain ⟨cl, t, g, vv, d, ds0, ds⟩ := pkt
  simp only [ber.tag_mk] at htag
  simp only [ber.children_mk] at hch
  subst htag
  subst hch
  constructor
  · intro v hv hbad
    rcases rest with _ | ⟨c1, _ | ⟨c2, _ | ⟨c3, r3⟩⟩⟩
    · simp only [envValue, ber.children_mk] at hv
      simp only [Option.some.injEq] at hv
      exact Option.noConfusion hv
    · cases hcv : c1.value <;>
        simp only [envValue, ber.children_mk, hcv, Option.some.injEq] at hv
      case vbool b => exact Option.noConfusion hv
      all_goals subst hv
      all_goals simp [Decode, hoid, hcv]
      all_goals
        exact dispatch_err ControlOIDPaging _ _ _ _ decodePaging _ rfl
          (decodePaging_err _ _ _ (by simpa using hbad))
    · cases hcv : c1.value <;>
        simp only [envValue, ber.children_mk, hcv, Option.some.injEq] at hv
      case vbool b =>
        subst hv
        simp [Decode, hoid, hcv]
        exact dispatch_err ControlOIDPaging _ _ _ _ decodePaging _ rfl
          (decodePaging_err _ _ _ (by simpa using hbad))
      all_goals exact Option.noConfusion hv
    · simp only [envValue, ber.children_mk] at hv
      exact Option.noConfusion hv
  · intro hv
    rcases rest with _ | ⟨c1, _ | ⟨c2, _ | ⟨c3, r3⟩⟩⟩
    · simp [Decode, hoid]
      exact dispatch_fault ControlOIDPaging _ _ _ _ decodePaging rfl rfl
    · cases hcv : c1.value <;>
        simp only [envValue, ber.children_mk, hcv, Option.some.injEq] at hv
      case vbool b =>
        simp [Decode, hoid, hcv]
        exact dispatch_fault ControlOIDPaging _ _ _ _ decodePaging rfl rfl
      all_goals exact Option.noConfusion hv
    · cases hcv : c1.value <;>
        simp only [envValue, ber.children_mk, hcv, Option.some.injEq] at hv
      case vbool b => exact Option.noConfusion hv
      all_goals exact Option.noConfusion hv
    · simp only [envValue, ber.children_mk] at hv
      exact Option.noConfusion hv

/-- C6 witness: a Paging envelope whose value has a single child is rejected
with ErrInvalidControlValue. -/
theorem c6_witness : (Decode c6BadShape).1 = .error .invalidControlValue := by
  refine (c6_paging_value_errors c6BadShape
      (ber.NewString 0 false 4 controls.ControlOIDPaging [])
      [ber.Packet.mk 0 true 16 .none [] [ber.NewInteger 0 false 2 3 []] []]
      rfl rfl rfl).1
    (ber.Packet.mk 0 true 16 .none [] [ber.NewInteger 0 false 2 3 []] []) rfl ?_
  rintro ⟨a, b, i, hab, hv⟩
  simp only [ber.children_mk] at hab
  exact absurd hab (by simp)

/-- C9: the Behera decoder parses a top level tag 1 child as an int64 and
truncates it to int8 with no range check: for every wire value v the decoded
Error is v reduced modulo 256 into the signed byte range, the ErrorString is
the table entry for that reduced code, and no error is reported. -/
theorem c9_behera_error_truncation (oid : GoStr) (crit : Bool) (pkt ch : ber.Packet)
    (v : Int) (hch : pkt.children = [ch]) (htag : ch.tag = 1)
    (hparse : ber.ParseInt64 ch.data = .ok v) :
    (decodeBehera oid crit (some pkt)).res =
      .ok (.behera (-1) (-1) (int8cast v) (BeheraPasswordPolicyErrorMap (int8cast v)) crit)
    ∧ (int8cast v - v) % 256 = 0 ∧ -128 ≤ int8cast v ∧ int8cast v < 128 := by
  refine ⟨?_, ?_, ?_, ?_⟩
  · simp only [decodeBehera, hch]
    rw [beheraLoop, if_neg (by omega), if_pos htag, hparse]
    simp [beheraLoop]
  · unfold int8cast
    omega
  · unfold int8cast
    omega
  · unfold int8cast
    omega

/-- C9 witness: wire value 256 decodes to Error 0 with ErrorString Password
expired and no error result. -/
theorem c9_witness :
    (decodeBehera ControlOIDBeheraPasswordPolicy false (some c9Pkt)).res =
      .ok (.behera (-1) (-1) 0 (strBytes ("Password expired")) false) := by
  have h := (c9_behera_error_truncation ControlOIDBeheraPasswordPolicy false c9Pkt
    (ber.Packet.mk 128 false 1 .none [1, 0] [] []) 256 rfl rfl rfl).1
  simpa using h

/-- The envelope of a control with false criticality and a present value, as
Decode sees it: two children, the OID string and the value. -/
lemma Decode_Encode_some_false (c : Control) (val : ber.Packet)
    (hcrit : Criticality c = false) (hv : ∀ b, val.value ≠ .vbool b) :
    Decode (Encode c (some val)) =
      dispatch (OID c) false (some (val.setDesc (strBytes ("Control Value")))) (some 1)
        (ber.Packet.mk ber.ClassUniversal true ber.TagSequence .none
          ((ber.NewString ber.ClassUniversal false ber.TagOctetString (OID c) (Name c)).Bytes
            ++ val.Bytes)
          [ber.NewString ber.ClassUniversal false ber.TagOctetString (OID c) (Name c),
           val.setDesc (strBytes ("Control Value"))]
          (strBytes ("Control"))) := by
  cases hval : val.value
  case vbool b => exact absurd hval (hv b)
  all_goals
    simp [Encode, ber.Encode, ber.NewString, ber.Packet.AppendChild, hcrit, Decode,
      ber.TagSequence, ber.TagOctetString, ber.ClassUniversal, hval]

/-- The envelope of a control with true criticality and a present value: three
children, with the boolean between OID and value. -/
lemma Decode_Encode_some_true (c : Control) (val : ber.Packet)
    (hcrit : Criticality c = true) :
    Decode (Encode c (some val)) =
      dispatch (OID c) true (some (val.setDesc (strBytes ("Control Value")))) (some 2)
        (ber.Packet.mk ber.ClassUniversal true ber.TagSequence .none
          ((ber.NewString ber.ClassUniversal false ber.TagOctetString (OID c) (Name c)).Bytes
            ++ (ber.NewBoolean ber.ClassUniversal false ber.TagBoolean true
                  (strBytes ("Criticality"))).Bytes
            ++ val.Bytes)
          [ber.NewString ber.ClassUniversal false ber.TagOctetString (OID c) (Name c),
           (ber.NewBoolean ber.ClassUniversal false ber.TagBoolean true
              (strBytes ("Criticality"))).setDesc (critDesc true),
           val.setDesc (strBytes ("Control Value"))]
          (strBytes ("Control"))) := by
  simp [Encode, ber.Encode, ber.NewString, ber.NewBoolean, ber.Packet.AppendChild, hcrit,
    Decode, ber.TagSequence, ber.TagOctetString, ber.TagBoolean, ber.ClassUniversal,
    critDesc]

/-- The bare envelope of a control with false criticality: one child. -/
lemma Decode_Encode_none_false (c : Control) (hcrit : Criticality c = false) :
    Decode (Encode c none) =
      dispatch (OID c) false none none
        (ber.Packet.mk ber.ClassUniversal true ber.TagSequence .none
          ((ber.NewString ber.ClassUniversal false ber.TagOctetString (OID c) (Name c)).Bytes)
          [ber.NewString ber.ClassUniversal false ber.TagOctetString (OID c) (Name c)]
          (strBytes ("Control"))) := by
  simp [Encode, ber.Encode, ber.NewString, ber.Packet.AppendChild, hcrit, Decode,
    ber.TagSequence, ber.TagOctetString, ber.ClassUniversal]

/-- The bare envelope of a control with true criticality: two children whose
second is the boolean, read back as the criticality. -/
lemma Decode_Encode_none_true (c : Control) (hcrit : Criticality c = true) :
    Decode (Encode c none) =
      dispatch (OID c) true none none
        (ber.Packet.mk ber.ClassUniversal true ber.TagSequence .none
          ((ber.NewString ber.ClassUniversal false ber.TagOctetString (OID c) (Name c)).Bytes
            ++ (ber.NewBoolean ber.ClassUniversal false ber.TagBoolean true
                  (strBytes ("Criticality"))).Bytes)
          [ber.NewString ber.ClassUniversal false ber.TagOctetString (OID c) (Name c),
           (ber.NewBoolean ber.ClassUniversal false ber.TagBoolean true
              (strBytes ("Criticality"))).setDesc (critDesc true)]
          (strBytes ("Control"))) := by
  simp [Encode, ber.Encode, ber.NewString, ber.NewBoolean, ber.Packet.AppendChild, hcrit,
    Decode, ber.TagSequence, ber.TagOctetString, ber.TagBoolean, ber.ClassUniversal,
    critDesc]

/-- One warning step of the Behera loop: a context constructed tag 0 wrapper
holding the expire integer assigns expire and recurses. -/
lemma beheraLoop_warn_expire (crit : Bool) (e g er e2 : Int) (es ds1 ds2 : GoStr)
    (rest : List ber.Packet)
    (h1 : -(2 ^ 63) ≤ e2) (h2 : e2 < 2 ^ 63) :
    beheraLoop crit e g er es
      (((ber.Encode ber.ClassContext true 0 .none ds1).AppendChild
          (ber.NewInteger ber.ClassContext false 0 e2 ds2)) :: rest) =
      ((beheraLoop crit e2 g er es rest).1,
        (((ber.Encode ber.ClassContext true 0 .none ds1).AppendChild
            (ber.NewInteger ber.ClassContext false 0 e2 ds2)).setDesc
              (strBytes ("Warning Packet"))).setChildren
          [(ber.NewInteger ber.ClassContext false 0 e2 ds2).setDesc (strBytes ("Expire Time"))]
        :: (beheraLoop crit e2 g er es rest).2) := by
  rw [beheraLoop]
  simp [ber.Encode, ber.NewInteger, ber.Packet.AppendChild, ber.ClassContext,
    ber.parseInt64_encodeInteger e2 h1 h2]

/-- One error step of the Behera loop: a context tag 1 int8 packet assigns the
truncated error and its string and recurses. -/
lemma beheraLoop_error (crit : Bool) (e g er er2 : Int) (es ds1 : GoStr)
    (rest : List ber.Packet)
    (h1 : -(2 ^ 63) ≤ er2) (h2 : er2 < 2 ^ 63) :
    beheraLoop crit e g er es
      ((ber.NewIntegerI8 ber.ClassContext false 1 er2 ds1) :: rest) =
      ((beheraLoop crit e g (int8cast er2) (BeheraPasswordPolicyErrorMap (int8cast er2)) rest).1,
        (ber.NewIntegerI8 ber.ClassContext false 1 er2 ds1).setDesc
          (strBytes ("Error Packet") ++ strBytes (": ")
            ++ BeheraPasswordPolicyErrorMap (int8cast er2))
        :: (beheraLoop crit e g (int8cast er2)
              (BeheraPasswordPolicyErrorMap (int8cast er2)) rest).2) := by
  rw [beheraLoop]
  simp [ber.NewIntegerI8, ber.ClassContext, ber.parseInt64_encodeInteger er2 h1 h2]

/-- A registered decoder returning a control surfaces it from the dispatch. -/
lemma dispatch_ok (oid : GoStr) (crit : Bool) (value : Option ber.Packet)
    (vIdx : Option Nat) (pkt : ber.Packet) (d : Decoder) (c2 : Control)
    (hreg : GetDecoder oid = some d) (hres : (d oid crit value).res = .ok c2) :
    (dispatch oid crit value vIdx pkt).1 = .ok c2 := by
  simp [dispatch, hreg, hres]

/-- C7: with both Expire and Grace non negative, the Behera encoder emits only
the expire branch of the warning choice, and decoding the encoded packet
yields Grace equal to the sentinel, never the original grace value. -/
theorem c7_behera_expire_priority (e g er : Int) (es : GoStr) (crit : Bool)
    (he0 : 0 ≤ e) (heb : e < 2 ^ 63) (hg : 0 ≤ g) (her1 : -128 ≤ er) (her2 : er ≤ 127) :
    beheraEncode e g er es crit =
      Encode (.behera e g er es crit)
        (some (if 0 ≤ er then
          (((ber.Encode ber.ClassUniversal true ber.TagSequence .none
              (strBytes ("Control Value"))).AppendChild
            ((ber.Encode ber.ClassContext true 0 .none
                (strBytes ("Warning Packet"))).AppendChild
              (ber.NewInteger ber.ClassContext false 0 e
                (strBytes ("Time Before Expiration"))))).AppendChild
            (ber.NewIntegerI8 ber.ClassContext false 1 er (BeheraPasswordPolicyErrorMap er)))
        else
          ((ber.Encode ber.ClassUniversal true ber.TagSequence .none
              (strBytes ("Control Value"))).AppendChild
            ((ber.Encode ber.ClassContext true 0 .none
                (strBytes ("Warning Packet"))).AppendChild
              (ber.NewInteger ber.ClassContext false 0 e
                (strBytes ("Time Before Expiration")))))))
    ∧ (Decode (beheraEncode e g er es crit)).1 =
        .ok (.behera e (-1) (if 0 ≤ er then er else -1)
          (BeheraPasswordPolicyErrorMap (if 0 ≤ er then er else -1)) crit)
    ∧ (-1 : Int) ≠ g := by
  have he1 : -(2 ^ 63) ≤ e := by omega
  have her3 : -(2 ^ 63) ≤ er := by omega
  have her4 : er < 2 ^ 63 := by omega
  have hcast : int8cast er = er := by unfold int8cast; omega
  have henc : beheraEncode e g er es crit =
      Encode (.behera e g er es crit)
        (some (if 0 ≤ er then
          (((ber.Encode ber.ClassUniversal true ber.TagSequence .none
              (strBytes ("Control Value"))).AppendChild
            ((ber.Encode ber.ClassContext true 0 .none
                (strBytes ("Warning Packet"))).AppendChild
              (ber.NewInteger ber.ClassContext false 0 e
                (strBytes ("Time Before Expiration"))))).AppendChild
            (ber.NewIntegerI8 ber.ClassContext false 1 er (BeheraPasswordPolicyErrorMap er)))
        else
          ((ber.Encode ber.ClassUniversal true ber.TagSequence .none
              (strBytes ("Control Value"))).AppendChild
            ((ber.Encode ber.ClassContext true 0 .none
                (strBytes ("Warning Packet"))).AppendChild
              (ber.NewInteger ber.ClassContext false 0 e
                (strBytes ("Time Before Expiration"))))))) := by
    simp only [beheraEncode]
    rw [if_neg (by omega : ¬(g < 0 ∧ e < 0 ∧ er < 0))]
    rw [if_pos (Or.inr he0 : (0 : Int) ≤ g ∨ 0 ≤ e), if_pos he0]
  refine ⟨henc, ?_, by omega⟩
  rw [henc]
  by_cases her : 0 ≤ er
  · rw [if_pos her]
    have hloop : ∀ (oid2 : GoStr) (crit2 : Bool) (v2 : ber.Packet),
        v2.children =
          [(ber.Encode ber.ClassContext true 0 .none
              (strBytes ("Warning Packet"))).AppendChild
            (ber.NewInteger ber.ClassContext false 0 e (strBytes ("Time Before Expiration"))),
           ber.NewIntegerI8 ber.ClassContext false 1 er (BeheraPasswordPolicyErrorMap er)] →
        (decodeBehera oid2 crit2 (some v2)).res =
          .ok (.behera e (-1) er (BeheraPasswordPolicyErrorMap er) crit2) := by
      intro oid2 crit2 v2 hch2
      simp only [decodeBehera, hch2]
      rw [beheraLoop_warn_expire crit2 (-1) (-1) (-1) e _ _ _ _ he1 heb]
      rw [beheraLoop_error crit2 e (-1) (-1) er _ _ _ her3 her4]
      rw [beheraLoop]
      simp [hcast]
    cases crit
    · rw [Decode_Encode_some_false (.behera e g er es false) _ rfl (by intro b h; simp at h)]
      rw [if_pos her]
      exact dispatch_ok _ _ _ _ _ decodeBehera _ rfl (hloop _ _ _ (by simp))
    · rw [Decode_Encode_some_true (.behera e g er es true) _ rfl]
      rw [if_pos her]
      exact dispatch_ok _ _ _ _ _ decodeBehera _ rfl (hloop _ _ _ (by simp))
  · rw [if_neg her]
    have hloop : ∀ (oid2 : GoStr) (crit2 : Bool) (v2 : ber.Packet),
        v2.children =
          [(ber.Encode ber.ClassContext true 0 .none
              (strBytes ("Warning Packet"))).AppendChild
            (ber.NewInteger ber.ClassContext false 0 e
              (strBytes ("Time Before Expiration")))] →
        (decodeBehera oid2 crit2 (some v2)).res =
          .ok (.behera e (-1) (-1) [] crit2) := by
      intro oid2 crit2 v2 hch2
      simp only [decodeBehera, hch2]
      rw [beheraLoop_warn_expire crit2 (-1) (-1) (-1) e _ _ _ _ he1 heb]
      rw [beheraLoop]
    cases crit
    · rw [Decode_Encode_some_false (.behera e g er es false) _ rfl (by intro b h; simp at h)]
      rw [if_neg her]
      have h2 : BeheraPasswordPolicyErrorMap (-1) = [] := rfl
      rw [h2]
      exact dispatch_ok _ _ _ _ _ decodeBehera _ rfl (hloop _ _ _ (by simp))
    · rw [Decode_Encode_some_true (.behera e g er es true) _ rfl]
      rw [if_neg her]
      have h2 : BeheraPasswordPolicyErrorMap (-1) = [] := rfl
      rw [h2]
      exact dispatch_ok _ _ _ _ _ decodeBehera _ rfl (hloop _ _ _ (by simp))

/-- C7 witness: expire 127 with grace 999 encodes only the expire branch and
decodes with the grace sentinel. -/
theorem c7_witness :
    (Decode (beheraEncode 127 999 (-1) [] false)).1 = .ok (.behera 127 (-1) (-1) [] false)
    ∧ (-1 : Int) ≠ 999 := by
  have h := (c7_behera_expire_priority 127 999 (-1) [] false (by norm_num) (by norm_num)
    (by norm_num) (by norm_num) (by norm_num)).2.1
  have h3 : (if (0 : Int) ≤ -1 then (-1 : Int) else -1) = -1 := by norm_num
  rw [h3] at h
  exact ⟨h, by norm_num⟩

/-! ## Frame condition: decoders touch only descriptions -/

lemma eraseDesc_mk (c : Nat) (t : Bool) (g : Nat) (v : ber.GoValue) (d : List Nat)
    (ch : List ber.Packet) (s : GoStr) :
    (ber.Packet.mk c t g v d ch s).eraseDesc =
      .mk c t g v d (ch.map ber.Packet.eraseDesc) [] := by
  unfold ber.Packet.eraseDesc
  congr 1
  simp

lemma eraseDesc_setDesc (p : ber.Packet) (s : GoStr) :
    (p.setDesc s).eraseDesc = p.eraseDesc := by
  cases p
  simp [eraseDesc_mk]

lemma Bytes_eraseDesc (p : ber.Packet) : p.eraseDesc.Bytes = p.Bytes := by
  cases p
  simp [eraseDesc_mk, ber.Packet.Bytes]

lemma beheraLoop_desc (crit : Bool) :
    ∀ (ch : List ber.Packet) (e g er : Int) (es : GoStr),
      ((beheraLoop crit e g er es ch).2).map ber.Packet.eraseDesc =
        ch.map ber.Packet.eraseDesc := by
  intro ch
  induction ch with
  | nil => intro e g er es; rfl
  | cons child rest ih =>
      intro e g er es
      rw [beheraLoop]
      by_cases h0 : child.tag = 0
      · rw [if_pos h0]
        rcases hcc : child.children with _ | ⟨inner, innerRest⟩
        · simp
        · cases hp : ber.ParseInt64 inner.data <;> simp only [hp]
          · simp [eraseDesc_setDesc]
          · by_cases hi0 : inner.tag = 0
            · rw [if_pos hi0]
              simp only [List.map_cons]
              obtain ⟨cc, ct, cg, cv, cd, cch, cs⟩ := child
              simp only [ber.children_mk] at hcc
              subst hcc
              simp [eraseDesc_mk, eraseDesc_setDesc, ih]
            · rw [if_neg hi0]
              by_cases hi1 : inner.tag = 1
              · rw [if_pos hi1]
                simp only [List.map_cons]
                obtain ⟨cc, ct, cg, cv, cd, cch, cs⟩ := child
                simp only [ber.children_mk] at hcc
                subst hcc
                simp [eraseDesc_mk, eraseDesc_setDesc, ih]
              · rw [if_neg hi1]
                simp [eraseDesc_setDesc]
      · rw [if_neg h0]
        by_cases h1 : child.tag = 1
        · rw [if_pos h1]
          cases hp : ber.ParseInt64 child.data <;> simp only [hp]
          · simp [eraseDesc_setDesc]
          · simp [eraseDesc_setDesc, ih]
        · rw [if_neg h1]

lemma pprAttrsLoop_desc :
    ∀ ch : List ber.Packet,
      ((pprAttrsLoop ch).1).map ber.Packet.eraseDesc = ch.map ber.Packet.eraseDesc := by
  intro ch
  induction ch with
  | nil => rfl
  | cons child rest ih =>
      rw [pprAttrsLoop]
      cases hv : child.value <;> simp only
      case vstr s =>
        rcases hrec : pprAttrsLoop rest with ⟨rest2, attrs⟩
        cases attrs <;>
          simp_all [eraseDesc_setDesc]
      all_goals simp [eraseDesc_setDesc]

lemma decodeManageDsaIT_desc (oid : GoStr) (crit : Bool) (v : Option ber.Packet) :
    ((decodeManageDsaIT oid crit v).val).map ber.Packet.eraseDesc =
      v.map ber.Packet.eraseDesc := rfl

lemma decodePaging_desc (oid : GoStr) (crit : Bool) (v : Option ber.Packet) :
    ((decodePaging oid crit v).val).map ber.Packet.eraseDesc =
      v.map ber.Packet.eraseDesc := by
  cases v with
  | none => rfl
  | some val =>
      rcases hch : val.children with _ | ⟨a, _ | ⟨b, _ | ⟨c2, r2⟩⟩⟩ <;>
        simp only [decodePaging, hch]
      · cases hv : a.value <;> simp

lemma decodeBehera_desc (oid : GoStr) (crit : Bool) (v : Option ber.Packet) :
    ((decodeBehera oid crit v).val).map ber.Packet.eraseDesc =
      v.map ber.Packet.eraseDesc := by
  cases v with
  | none => rfl
  | some pkt =>
      obtain ⟨cc, ct, cg, cv, cd, cch, cs⟩ := pkt
      simp [decodeBehera, eraseDesc_mk, beheraLoop_desc]

lemma decodeProxiedAuthorization_desc (oid : GoStr) (crit : Bool) (v : Option ber.Packet) :
    ((decodeProxiedAuthorization oid crit v).val).map ber.Packet.eraseDesc =
      v.map ber.Packet.eraseDesc := by
  cases v with
  | none => rfl
  | some pkt => simp [decodeProxiedAuthorization, eraseDesc_setDesc]

lemma decodeVChuPassword_desc (oid : GoStr) (crit : Bool) (v : Option ber.Packet) :
    ((decodeVChuPassword oid crit v).val).map ber.Packet.eraseDesc =
      v.map ber.Packet.eraseDesc := by
  unfold decodeVChuPassword
  by_cases h1 : oid = ControlOIDVChuPasswordMustChange
  · simp [h1]
  · rw [if_neg h1]
    by_cases h2 : oid = ControlOIDVChuPasswordWarning
    · rw [if_pos h2]
      cases v with
      | none => rfl
      | some pkt =>
          rcases hch : pkt.children with _ | ⟨c0, rest⟩
          · simp [hch]
          · simp only [hch]
            rcases hp : goParseInt10 (ber.DecodeString c0.data) with _ | expire
            · simp [hp]
            · obtain ⟨cc, ct, cg, cv, cd, cch, cs⟩ := pkt
              simp only [ber.children_mk] at hch
              subst hch
              simp [hp, eraseDesc_mk, eraseDesc_setDesc]
    · rw [if_neg h2]

lemma decodePrePostRead_desc (oid : GoStr) (crit : Bool) (v : Option ber.Packet) :
    ((decodePrePostRead oid crit v).val).map ber.Packet.eraseDesc =
      v.map ber.Packet.eraseDesc := by
  unfold decodePrePostRead
  by_cases h1 : oid = ControlOIDPreRead ∨ oid = ControlOIDPostRead
  · rw [if_pos h1]
    cases v with
    | none => rfl
    | some pkt =>
        dsimp only
        by_cases ht : pkt.tag = ber.TagSequence
        · rw [if_pos ht]
          rcases hloop : pprAttrsLoop pkt.children with ⟨ch2, attrs⟩
          have hd := pprAttrsLoop_desc pkt.children
          rw [hloop] at hd
          obtain ⟨cc, ct, cg, cv, cd, cch, cs⟩ := pkt
          simp only [ber.children_mk] at hloop hd
          cases attrs <;> simp [hloop, eraseDesc_mk, hd]
        · rw [if_neg ht]
          by_cases ho : pkt.tag = ber.TagOctetString
          · rw [if_pos ho]
            cases hdp : ber.DecodePacketErr pkt.data
            · simp [hdp]
            · rename_i entry
              simp only [hdp]
              rcases hech : entry.children with _ | ⟨e0, erest⟩
              · simp [hech]
              · cases hv0 : e0.value
                all_goals try simp [hech, hv0]
                all_goals rcases erest with _ | ⟨e1, erest2⟩
                all_goals try exact ⟨pkt, rfl, rfl⟩
                all_goals cases hav : pprAvLoop e1.children
                all_goals exact ⟨pkt, by simp [hav], rfl⟩
          · rw [if_neg ho]
  · rw [if_neg h1]

lemma getDecoder_desc (oid : GoStr) (d : Decoder) (hreg : GetDecoder oid = some d)
    (oid2 : GoStr) (crit : Bool) (v : Option ber.Packet) :
    ((d oid2 crit v).val).map ber.Packet.eraseDesc = v.map ber.Packet.eraseDesc := by
  unfold GetDecoder at hreg
  split_ifs at hreg
  any_goals cases hreg
  · exact decodeManageDsaIT_desc oid2 crit v
  · exact decodePaging_desc oid2 crit v
  · exact decodeBehera_desc oid2 crit v
  · exact decodeProxiedAuthorization_desc oid2 crit v
  · exact decodeVChuPassword_desc oid2 crit v
  · exact decodeVChuPassword_desc oid2 crit v
  · exact decodePrePostRead_desc oid2 crit v
  · exact decodePrePostRead_desc oid2 crit v

lemma setChild0Desc_erase (p : ber.Packet) (s : GoStr) :
    (setChild0Desc p s).eraseDesc = p.eraseDesc := by
  unfold setChild0Desc
  rcases hch : p.children with _ | ⟨c, r⟩
  · rfl
  · obtain ⟨cc, ct, cg, cv, cd, cch, cs⟩ := p
    simp only [ber.children_mk] at hch
    subst hch
    simp [eraseDesc_mk, eraseDesc_setDesc]

lemma dispatch_desc (oid : GoStr) (crit : Bool) (value : Option ber.Packet)
    (vIdx : Option Nat) (pkt : ber.Packet)
    (hsplice : ∀ v2 : Option ber.Packet,
       v2.map ber.Packet.eraseDesc = value.map ber.Packet.eraseDesc →
       (spliceValue pkt vIdx v2).eraseDesc = pkt.eraseDesc) :
    ((dispatch oid crit value vIdx pkt).2).eraseDesc = pkt.eraseDesc := by
  unfold dispatch
  cases hreg : GetDecoder oid
  · rfl
  · rename_i d
    have h1 : (spliceValue pkt vIdx (d oid crit value).val).eraseDesc = pkt.eraseDesc :=
      hsplice _ (getDecoder_desc oid d hreg oid crit value)
    cases hres : (d oid crit value).res
    all_goals simp only [hres]
    · rw [setChild0Desc_erase]
      exact h1
    · exact h1
    · exact h1

lemma Bytes_eq_of_erase_eq (p q : ber.Packet) (h : p.eraseDesc = q.eraseDesc) :
    p.Bytes = q.Bytes := by
  rw [← Bytes_eraseDesc p, ← Bytes_eraseDesc q, h]

lemma decode_erase_notstr (cl : Nat) (t : Bool) (v : ber.GoValue) (d : List Nat)
    (ch : List ber.Packet) (ds : GoStr) (a : ber.Packet) (rest : List ber.Packet)
    (hch : ch = a :: rest) (hlen : ch.length ≤ 3)
    (hstr : ∀ s, a.value ≠ ber.GoValue.vstr s) :
    Decode (ber.Packet.mk cl t ber.TagSequence v d ch ds) =
      (.error .invalidControlData, ber.Packet.mk cl t ber.TagSequence v d ch ds) := by
  subst hch
  rcases hv0 : a.value with _ | i | i | b | oid | bs
  · simp [Decode, hv0]
  · simp [Decode, hv0]
  · simp [Decode, hv0]
  · simp [Decode, hv0]
  · exact absurd hv0 (hstr oid)
  · simp [Decode, hv0]

lemma decode_erase (pkt : ber.Packet) : ((Decode pkt).2).eraseDesc = pkt.eraseDesc := by
  obtain ⟨cl, t, g, v, d, ch, ds⟩ := pkt
  by_cases hg : g = ber.TagSequence
  · subst hg
    rcases ch with _ | ⟨a, _ | ⟨c1, _ | ⟨c2, _ | ⟨c3, r3⟩⟩⟩⟩
    · simp [Decode]
    · by_cases hstr : ∃ oid, a.value = ber.GoValue.vstr oid
      · obtain ⟨oid, hv0⟩ := hstr
        simp only [Decode, ber.tag_mk, ber.children_mk, hv0]
        simp only [List.length_cons, List.length_nil]
        rw [if_neg (by decide), if_neg (by omega)]
        exact dispatch_desc _ _ _ _ _ (fun v2 _ => rfl)
      · rw [decode_erase_notstr cl t v d _ ds a [] rfl (by simp)
          (fun s h => hstr ⟨s, h⟩)]
    · by_cases hstr : ∃ oid, a.value = ber.GoValue.vstr oid
      · obtain ⟨oid, hv0⟩ := hstr
        by_cases hbool : ∃ b, c1.value = ber.GoValue.vbool b
        · obtain ⟨b1, hv1⟩ := hbool
          simp only [Decode, ber.tag_mk, ber.children_mk, hv0, hv1]
          rw [if_neg (by decide), if_neg (by simp)]
          have h2 : ((ber.Packet.mk cl t ber.TagSequence v d
              [a, c1.setDesc (critDesc b1)] ds)).eraseDesc =
              ((ber.Packet.mk cl t ber.TagSequence v d [a, c1] ds)).eraseDesc := by
            simp [eraseDesc_mk, eraseDesc_setDesc]
          rw [← h2]
          exact dispatch_desc _ _ _ _ _ (fun v2 _ => rfl)
        · have h2 : ((ber.Packet.mk cl t ber.TagSequence v d
              [a, c1.setDesc (strBytes ("Control Value"))] ds)).eraseDesc =
              ((ber.Packet.mk cl t ber.TagSequence v d [a, c1] ds)).eraseDesc := by
            simp [eraseDesc_mk, eraseDesc_setDesc]
          rcases hv1 : c1.value with _ | i1 | i1 | b1 | s1 | bs1
          · simp only [Decode, ber.tag_mk, ber.children_mk, hv0, hv1]
            rw [if_neg (by decide), if_neg (by simp)]
            rw [← h2]
            refine dispatch_desc _ _ _ _ _ ?_
            intro v2 hv2
            cases v2 with
            | none => exact Option.noConfusion hv2
            | some u =>
                simp at hv2
                simp [spliceValue, List.set, eraseDesc_mk, hv2, eraseDesc_setDesc]
          · simp only [Decode, ber.tag_mk, ber.children_mk, hv0, hv1]
            rw [if_neg (by decide), if_neg (by simp)]
            rw [← h2]
            refine dispatch_desc _ _ _ _ _ ?_
            intro v2 hv2
            cases v2 with
            | none => exact Option.noConfusion hv2
            | some u =>
                simp at hv2
                simp [spliceValue, List.set, eraseDesc_mk, hv2, eraseDesc_setDesc]
          · simp only [Decode, ber.tag_mk, ber.children_mk, hv0, hv1]
            rw [if_neg (by decide), if_neg (by simp)]
            rw [← h2]
            refine dispatch_desc _ _ _ _ _ ?_
            intro v2 hv2
            cases v2 with
            | none => exact Option.noConfusion hv2
            | some u =>
                simp at hv2
                simp [spliceValue, List.set, eraseDesc_mk, hv2, eraseDesc_setDesc]
          · exact absurd ⟨b1, hv1⟩ hbool
          · simp only [Decode, ber.tag_mk, ber.children_mk, hv0, hv1]
            rw [if_neg (by decide), if_neg (by simp)]
            rw [← h2]
            refine dispatch_desc _ _ _ _ _ ?_
            intro v2 hv2
            cases v2 with
            | none => exact Option.noConfusion hv2
            | some u =>
                simp at hv2
                simp [spliceValue, List.set, eraseDesc_mk, hv2, eraseDesc_setDesc]
          · simp only [Decode, ber.tag_mk, ber.children_mk, hv0, hv1]
            rw [if_neg (by decide), if_neg (by simp)]
            rw [← h2]
            refine dispatch_desc _ _ _ _ _ ?_
            intro v2 hv2
            cases v2 with
            | none => exact Option.noConfusion hv2
            | some u =>
                simp at hv2
                simp [spliceValue, List.set, eraseDesc_mk, hv2, eraseDesc_setDesc]
      · rw [decode_erase_notstr cl t v d _ ds a [c1] rfl (by simp)
          (fun s h => hstr ⟨s, h⟩)]
    · by_cases hstr : ∃ oid, a.value = ber.GoValue.vstr oid
      · obtain ⟨oid, hv0⟩ := hstr
        by_cases hbool : ∃ b, c1.value = ber.GoValue.vbool b
        · obtain ⟨b1, hv1⟩ := hbool
          simp only [Decode, ber.tag_mk, ber.children_mk, hv0, hv1]
          rw [if_neg (by decide), if_neg (by simp)]
          have h2 : ((ber.Packet.mk cl t ber.TagSequence v d
              [a, c1.setDesc (critDesc b1),
               c2.setDesc (strBytes ("Control Value"))] ds)).eraseDesc =
              ((ber.Packet.mk cl t ber.TagSequence v d [a, c1, c2] ds)).eraseDesc := by
            simp [eraseDesc_mk, eraseDesc_setDesc]
          rw [← h2]
          refine dispatch_desc _ _ _ _ _ ?_
          intro v2 hv2
          cases v2 with
          | none => exact Option.noConfusion hv2
          | some u =>
              simp at hv2
              simp [spliceValue, List.set, eraseDesc_mk, hv2, eraseDesc_setDesc]
        · rcases hv1 : c1.value with _ | i1 | i1 | b1 | s1 | bs1
          · simp [Decode, hv0, hv1]
          · simp [Decode, hv0, hv1]
          · simp [Decode, hv0, hv1]
          · exact absurd ⟨b1, hv1⟩ hbool
          · simp [Decode, hv0, hv1]
          · simp [Decode, hv0, hv1]
      · rw [decode_erase_notstr cl t v d _ ds a [c1, c2] rfl (by simp)
          (fun s h => hstr ⟨s, h⟩)]
    · simp [Decode]
  · simp [Decode, hg]

/-- C10: Decode and every built-in decoder modify only Description fields of
the input packet tree, so re-encoding the input after a Decode call produces
the same bytes as before. -/
theorem c10_decode_touches_only_descriptions :
    (∀ pkt : ber.Packet,
       ((Decode pkt).2).eraseDesc = pkt.eraseDesc ∧ ((Decode pkt).2).Bytes = pkt.Bytes)
    ∧ (∀ (oid : GoStr) (crit : Bool) (v : Option ber.Packet),
        ((decodeManageDsaIT oid crit v).val).map ber.Packet.eraseDesc =
          v.map ber.Packet.eraseDesc)
    ∧ (∀ (oid : GoStr) (crit : Bool) (v : Option ber.Packet),
        ((decodePaging oid crit v).val).map ber.Packet.eraseDesc =
          v.map ber.Packet.eraseDesc)
    ∧ (∀ (oid : GoStr) (crit : Bool) (v : Option ber.Packet),
        ((decodeBehera oid crit v).val).map ber.Packet.eraseDesc =
          v.map ber.Packet.eraseDesc)
    ∧ (∀ (oid : GoStr) (crit : Bool) (v : Option ber.Packet),
        ((decodeProxiedAuthorization oid crit v).val).map ber.Packet.eraseDesc =
          v.map ber.Packet.eraseDesc)
    ∧ (∀ (oid : GoStr) (crit : Bool) (v : Option ber.Packet),
        ((decodeVChuPassword oid crit v).val).map ber.Packet.eraseDesc =
          v.map ber.Packet.eraseDesc)
    ∧ (∀ (oid : GoStr) (crit : Bool) (v : Option ber.Packet),
        ((decodePrePostRead oid crit v).val).map ber.Packet.eraseDesc =
          v.map ber.Packet.eraseDesc) :=
  ⟨fun pkt => ⟨decode_erase pkt, Bytes_eq_of_erase_eq _ _ (decode_erase pkt)⟩,
   decodeManageDsaIT_desc, decodePaging_desc, decodeBehera_desc,
   decodeProxiedAuthorization_desc, decodeVChuPassword_desc, decodePrePostRead_desc⟩

/-! ## Pre and Post Read shape dispatch -/

lemma pprValsLoop_spec : ∀ ch : List ber.Packet, pprValsLoop ch = specChildStrings ch := by
  intro ch
  induction ch with
  | nil => rfl
  | cons c rest ih =>
      rw [pprValsLoop, specChildStrings]
      cases c.value <;> simp [ih]

lemma pprAttrsLoop_strings : ∀ (ch : List ber.Packet) (attrs : List GoStr),
    specChildStrings ch = some attrs → (pprAttrsLoop ch).2 = some attrs := by
  intro ch
  induction ch with
  | nil => intro attrs h; simpa [pprAttrsLoop, specChildStrings] using h
  | cons c rest ih =>
      intro attrs h
      rw [specChildStrings] at h
      rw [pprAttrsLoop]
      cases hv : c.value <;> rw [hv] at h <;> try exact Option.noConfusion h
      rename_i s
      rcases hs : specChildStrings rest with _ | l
      · rw [hs] at h
        exact Option.noConfusion h
      · rw [hs] at h
        simp only [Option.map_some'] at h
        rcases hrec : pprAttrsLoop rest with ⟨rest2, attrs2⟩
        have := ih l hs
        rw [hrec] at this
        simp only at this
        subst this
        simpa using h

lemma pprAvLoop_spec : ∀ (ch : List ber.Packet) (avs : List (GoStr × List GoStr)),
    specAttrSelections ch = some avs → pprAvLoop ch = some avs := by
  intro ch
  induction ch with
  | nil => intro avs h; simpa [pprAvLoop, specAttrSelections] using h
  | cons c rest ih =>
      intro avs h
      rw [specAttrSelections] at h
      rw [pprAvLoop]
      rcases hcc : c.children with _ | ⟨a, _ | ⟨b, r2⟩⟩ <;> rw [hcc] at h <;> dsimp only at h ⊢
      · exact Option.noConfusion h
      · exact Option.noConfusion h
      · rcases hv : a.value with _ | i | i | bb | ty | bs <;> rw [hv] at h <;>
          dsimp only at h ⊢ <;> try exact Option.noConfusion h
        rcases hs : specChildStrings b.children with _ | vs <;> rw [hs] at h
        · exact Option.noConfusion h
        · rcases hrest : specAttrSelections rest with _ | l <;> rw [hrest] at h
          · exact Option.noConfusion h
          · simp only [Option.map_some'] at h
            rw [pprValsLoop_spec, hs, ih l hrest]
            simpa using h

/-- C8: the Pre and Post Read decoder dispatches on the value tag alone: a
sequence decodes to a request collecting the children as attribute strings, an
octet string decodes to a result with the DN and the attribute selections read
from the re-decoded entry, and any other tag is an error. -/
theorem c8_prepostread_shape_dispatch (oid : GoStr) (c : Bool) (pkt : ber.Packet)
    (hoid : oid = ControlOIDPreRead ∨ oid = ControlOIDPostRead) :
    (∀ attrs, pkt.tag = ber.TagSequence → specChildStrings pkt.children = some attrs →
       ∃ pkt2, decodePrePostRead oid c (some pkt) =
         ⟨.ok (.prePostRead true oid c attrs [] []), some pkt2⟩)
    ∧ (∀ entry dn avs, pkt.tag = ber.TagOctetString →
       ber.DecodePacketErr pkt.data = .ok entry →
       (∃ e0 e1 rest2, entry.children = e0 :: e1 :: rest2 ∧ e0.value = .vstr dn ∧
          specAttrSelections e1.children = some avs) →
       decodePrePostRead oid c (some pkt) =
         ⟨.ok (.prePostRead false oid c [] dn avs), some pkt⟩)
    ∧ (pkt.tag ≠ ber.TagSequence → pkt.tag ≠ ber.TagOctetString →
       decodePrePostRead oid c (some pkt) = ⟨.err .invalidTagOnValue, some pkt⟩) := by
  refine ⟨?_, ?_, ?_⟩
  · intro attrs htag hstrs
    unfold decodePrePostRead
    rw [if_pos hoid]
    dsimp only
    rw [if_pos htag]
    rcases hloop : pprAttrsLoop pkt.children with ⟨ch2, attrs2⟩
    have h2 := pprAttrsLoop_strings pkt.children attrs hstrs
    rw [hloop] at h2
    simp only at h2
    subst h2
    exact ⟨pkt.setChildren ch2, rfl⟩
  · intro entry dn avs htag hdp ⟨e0, e1, rest2, hech, hv0, hsel⟩
    unfold decodePrePostRead
    rw [if_pos hoid]
    dsimp only
    rw [if_neg (by rw [htag]; decide), if_pos htag, hdp]
    dsimp only
    rw [hech]
    dsimp only
    rw [hv0]
    dsimp only
    rw [pprAvLoop_spec e1.children avs hsel]
  · intro h1 h2
    unfold decodePrePostRead
    rw [if_pos hoid]
    dsimp only
    rw [if_neg h1, if_neg h2]

theorem c8_witness :
    (∃ pkt2, decodePrePostRead ControlOIDPreRead false (some c8ReqPkt) =
       ⟨.ok (.prePostRead true ControlOIDPreRead false [strBytes "cn", strBytes "sn"] [] []),
        some pkt2⟩)
    ∧ decodePrePostRead ControlOIDPostRead true (some c8BadPkt) =
       ⟨.err .invalidTagOnValue, some c8BadPkt⟩ :=
  ⟨(c8_prepostread_shape_dispatch ControlOIDPreRead false c8ReqPkt (Or.inl rfl)).1
      [strBytes "cn", strBytes "sn"] rfl (by decide),
   (c8_prepostread_shape_dispatch ControlOIDPostRead true c8BadPkt (Or.inr rfl)).2.2
      (by decide) (by decide)⟩

end Claims


namespace ber

lemma readPacket_succ (fuel : Nat) (b : Nat) (l : List Nat) :
    readPacket (fuel + 1) (b :: l) =
      (let cls := b / 64 * 64
       let constructed : Bool := b % 64 / 32 = 1
       let lowTag := b % 32
       let idTail : Option (Nat × Nat × List Nat) :=
         if lowTag = 31 then readIdentifierLoop 16 l 0 else some (lowTag, 0, l)
       match idTail with
       | none => none
       | some (tag, idExtra, rest2) =>
           match readLength rest2 with
           | none => none
           | some (len, lenRead, rest3) =>
               let headerRead := 1 + idExtra + lenRead
               if constructed then
                 match readChildren fuel len rest3 with
                 | none => none
                 | some (cs, csRead, rest4) =>
                     some (.mk cls true tag .none ((cs.map Packet.Bytes).flatten) cs [],
                           headerRead + csRead, rest4)
               else
                 if rest3.length < len then none
                 else
                   some (.mk cls false tag (readValue cls tag (rest3.take len))
                           (rest3.take len) [] [],
                         headerRead + len, rest3.drop len)) := by
  rw [readPacket]

lemma readChildren_zero (fuel : Nat) (input : List Nat) :
    readChildren (fuel + 1) 0 input = some ([], 0, input) := by
  rw [readChildren]

lemma readChildren_succ (fuel need : Nat) (input : List Nat) :
    readChildren (fuel + 1) (need + 1) input =
      match readPacket fuel input with
      | none => none
      | some (c, r, rest) =>
          match readChildren fuel (need + 1 - r) rest with
          | some (cs, rs, rest2) => some (c :: cs, r + rs, rest2)
          | none => none := by
  rw [readChildren]
  omega
end ber


namespace ber

lemma encodeIdentifier_low (cls : Nat) (t : Bool) (tag : Nat) (h : tag < 31) :
    encodeIdentifier cls t tag = [cls + (if t then 32 else 0) + tag] := by
  unfold encodeIdentifier
  rw [if_pos h]

lemma encodeLength_length_pos (n : Nat) : 1 ≤ (encodeLength n).length := by
  unfold encodeLength
  split
  · simp
  · rw [encodeUnsignedInteger_length]
    exact uint64LengthAux_ge_one 16 n

lemma encodeIdentifier_length_pos (cls : Nat) (t : Bool) (tag : Nat) :
    1 ≤ (encodeIdentifier cls t tag).length := by
  unfold encodeIdentifier
  cases t <;> split <;> split <;> simp

lemma Bytes_length_pos (p : Packet) : 1 ≤ p.Bytes.length := by
  cases p with
  | mk c t g v d ch s =>
      simp only [Packet.Bytes, List.length_append]
      have h1 := encodeIdentifier_length_pos c t g
      simp only [cls_mk, constructed_mk, tag_mk] at h1 ⊢
      omega

lemma Bytes_mk_low (c : Nat) (t : Bool) (g : Nat) (v : GoValue) (d : List Nat)
    (ch : List Packet) (s : GoStr) (h : g < 31) :
    (Packet.mk c t g v d ch s).Bytes =
      (c + (if t then 32 else 0) + g) :: (encodeLength d.length ++ d) := by
  simp [Packet.Bytes, encodeIdentifier_low c t g h]

lemma map_Bytes_reparse (ch : List Packet) :
    ch.map (fun x => x.reparse.Bytes) = ch.map Packet.Bytes :=
  List.map_congr_left fun a _ => Bytes_reparse a

lemma readPacket_wfB : ∀ fuel : Nat,
    (∀ (p : Packet) (rest : List Nat), p.wfB = true → p.Bytes.length ≤ fuel →
      readPacket fuel (p.Bytes ++ rest) = some (p.reparse, p.Bytes.length, rest))
    ∧ (∀ (cs : List Packet) (rest : List Nat), (∀ c ∈ cs, c.wfB = true) →
      ((cs.map Packet.Bytes).flatten).length + 1 ≤ fuel →
      readChildren fuel ((cs.map Packet.Bytes).flatten).length
          ((cs.map Packet.Bytes).flatten ++ rest) =
        some (cs.map Packet.reparse, ((cs.map Packet.Bytes).flatten).length, rest)) := by
  intro fuel
  induction fuel with
  | zero =>
      constructor
      · intro p rest _ hfl
        have := Bytes_length_pos p
        omega
      · intro cs rest _ hfl
        omega
  | succ fuel ih =>
      constructor
      · intro p rest hwf hfl
        cases p with
        | mk cls t tag v d ch s =>
            rw [wfB_mk_iff] at hwf
            obtain ⟨h64, h256, htag, hdlen, hdata, hch⟩ := hwf
            have help := encodeLength_length_pos d.length
            rw [Bytes_mk_low cls t tag v d ch s htag] at hfl ⊢
            rw [reparse_mk]
            cases t
            · simp only [if_neg (by exact Bool.false_ne_true)] at hfl ⊢
              simp only [List.cons_append, List.append_assoc, List.length_cons,
                List.length_append] at hfl ⊢
              rw [readPacket_succ]
              have hcls : (cls + 0 + tag) / 64 * 64 = cls := by omega
              have hcon : (decide ((cls + 0 + tag) % 64 / 32 = 1)) = false := by
                simp only [decide_eq_false_iff_not]
                omega
              have hlow : (cls + 0 + tag) % 32 = tag := by omega
              simp only [hcls, hcon, hlow, if_neg (by omega : ¬ tag = 31)]
              rw [readLength_encodeLength d.length hdlen (d ++ rest)]
              simp only [Bool.false_eq_true, if_false]
              rw [if_neg (by simp only [List.length_append]; omega)]
              rw [List.take_left, List.drop_left]
              simp only [Option.some.injEq, Prod.mk.injEq, and_true, true_and]
              omega
            · obtain hd : d = (ch.map Packet.Bytes).flatten := hdata rfl
              subst hd
              simp only [eq_self_iff_true, if_true] at hfl ⊢
              simp only [List.cons_append, List.append_assoc, List.length_cons,
                List.length_append] at hfl ⊢
              rw [readPacket_succ]
              have hcls : (cls + 32 + tag) / 64 * 64 = cls := by omega
              have hcon : (decide ((cls + 32 + tag) % 64 / 32 = 1)) = true := by
                simp only [decide_eq_true_eq]
                omega
              have hlow : (cls + 32 + tag) % 32 = tag := by omega
              simp only [hcls, hcon, hlow, if_neg (by omega : ¬ tag = 31)]
              try dsimp only
              rw [readLength_encodeLength ((ch.map Packet.Bytes).flatten).length hdlen
                ((ch.map Packet.Bytes).flatten ++ rest)]
              try dsimp only
              simp only [eq_self_iff_true, if_true]
              rw [ih.2 ch rest hch (by omega)]
              try dsimp only
              simp only [Option.some.injEq, Prod.mk.injEq, and_true, true_and]
              refine ⟨?_, by omega⟩
              simp only [List.map_map]
              congr 1
              exact congrArg List.flatten (List.map_congr_left fun a _ => Bytes_reparse a)
      · intro cs rest hall hfl
        cases cs with
        | nil =>
            simp only [List.map_nil, List.flatten_nil, List.length_nil, List.nil_append]
            exact readChildren_zero fuel rest
        | cons c cs2 =>
            have hcpos := Bytes_length_pos c
            simp only [List.map_cons, List.flatten_cons, List.length_append,
              List.append_assoc] at hfl ⊢
            obtain ⟨m, hm⟩ : ∃ m,
                c.Bytes.length + ((cs2.map Packet.Bytes).flatten).length = m + 1 :=
              ⟨c.Bytes.length + ((cs2.map Packet.Bytes).flatten).length - 1, by omega⟩
            rw [hm, readChildren_succ]
            rw [ih.1 c (((cs2.map Packet.Bytes).flatten) ++ rest) (hall c (by simp))
              (by omega)]
            dsimp only
            rw [show m + 1 - c.Bytes.length = ((cs2.map Packet.Bytes).flatten).length
              from by omega]
            rw [ih.2 cs2 rest (fun x hx => hall x (by simp [hx])) (by omega)]
            try dsimp only
            simp only [Option.some.injEq, Prod.mk.injEq, List.map_cons, and_true, true_and]
            omega

lemma DecodePacketErr_Bytes (p : Packet) (h : p.wfB = true) :
    DecodePacketErr p.Bytes = .ok p.reparse := by
  unfold DecodePacketErr
  have hr := (readPacket_wfB (p.Bytes.length + 1)).1 p [] h (by omega)
  rw [List.append_nil] at hr
  rw [hr]

end ber


namespace controls

lemma decDigitsAux_spec : ∀ (fuel n : Nat), n < 10 ^ fuel →
    ((decDigitsAux fuel n).all (fun d => 48 ≤ d && d ≤ 57) = true
     ∧ ∀ acc : Nat, (decDigitsAux fuel n).foldl (fun a d => a * 10 + (d - 48)) acc
         = acc * 10 ^ (decDigitsAux fuel n).length + n) := by
  intro fuel
  induction fuel with
  | zero =>
      intro n h
      simp only [pow_zero, Nat.lt_one_iff] at h
      subst h
      exact ⟨rfl, fun acc => by simp [decDigitsAux]⟩
  | succ fuel ih =>
      intro n h
      by_cases hz : n = 0
      · subst hz
        exact ⟨by simp [decDigitsAux], fun acc => by simp [decDigitsAux]⟩
      · have hdiv : n / 10 < 10 ^ fuel := by
          rw [Nat.div_lt_iff_lt_mul (by norm_num)]
          calc n < 10 ^ (fuel + 1) := h
            _ = 10 ^ fuel * 10 := by ring
        obtain ⟨hall, hfold⟩ := ih (n / 10) hdiv
        have heq : decDigitsAux (fuel + 1) n
            = decDigitsAux fuel (n / 10) ++ [48 + n % 10] := by
          rw [decDigitsAux, if_neg hz]
        constructor
        · rw [heq, List.all_append]
          rw [hall]
          simp only [List.all_cons, List.all_nil, Bool.and_true, Bool.true_and]
          simp only [Bool.and_eq_true, decide_eq_true_eq]
          omega
        · intro acc
          rw [heq, List.foldl_append, hfold acc]
          simp only [List.foldl_cons, List.foldl_nil, List.length_append,
            List.length_cons, List.length_nil, Nat.add_sub_cancel_left]
          rw [pow_succ]
          have hsplit : 10 * (n / 10) + n % 10 = n := Nat.div_add_mod n 10
          generalize (10 : Nat) ^ (decDigitsAux fuel (n / 10)).length = t
          have hmul : acc * (t * 10) = acc * t * 10 := by ring
          rw [hmul, Nat.add_mul]
          omega

lemma natDecimal_spec (n : Nat) (h : n < 10 ^ 32) :
    (natDecimal n).all (fun d => 48 ≤ d && d ≤ 57) = true
    ∧ (natDecimal n).foldl (fun a d => a * 10 + (d - 48)) 0 = n
    ∧ natDecimal n ≠ [] := by
  by_cases hz : n = 0
  · subst hz
    refine ⟨by decide, by decide, by decide⟩
  · have hd := decDigitsAux_spec 32 n h
    have hne : decDigitsAux 32 n ≠ [] := by
      rw [show (32 : Nat) = 31 + 1 from rfl, decDigitsAux, if_neg hz]
      simp
    rw [natDecimal, if_neg hz]
    exact ⟨hd.1, by rw [hd.2 0]; ring, hne⟩

lemma goParseInt10_goItoa (i : Int) (h1 : -(2 ^ 63) ≤ i) (h2 : i < 2 ^ 63) :
    goParseInt10 (goItoa i) = .ok i := by
  by_cases hneg : i < 0
  · have hm1 : 1 ≤ (-i).toNat := by omega
    have hm2 : (-i).toNat < 10 ^ 32 := by
      have : (-i).toNat ≤ 2 ^ 63 := by omega
      calc (-i).toNat ≤ 2 ^ 63 := this
        _ < 10 ^ 32 := by norm_num
    obtain ⟨hall, hfold, hne⟩ := natDecimal_spec (-i).toNat hm2
    rw [goItoa, if_pos hneg]
    rw [goParseInt10]
    dsimp only
    rw [if_pos (show (45 : Nat) = 45 ∨ (45 : Nat) = 43 from Or.inl rfl)]
    rw [if_neg hne, if_pos hall]
    rw [if_pos (by decide : (decide ((45 : Nat) = 45)) = true)]
    rw [hfold]
    rw [if_pos (by omega : (-i).toNat ≤ 2 ^ 63)]
    congr 1
    simp only [Int.ofNat_eq_coe]
    omega
  · have hm2 : i.toNat < 10 ^ 32 := by
      have : i.toNat < 2 ^ 63 := by omega
      calc i.toNat < 2 ^ 63 := this
        _ < 10 ^ 32 := by norm_num
    obtain ⟨hall, hfold, hne⟩ := natDecimal_spec i.toNat hm2
    rw [goItoa, if_neg hneg]
    obtain ⟨c, cs, hc⟩ := List.exists_cons_of_ne_nil hne
    rw [hc] at hall hfold ⊢
    have hcdig : 48 ≤ c ∧ c ≤ 57 := by
      have := hall
      simp only [List.all_cons, Bool.and_eq_true, decide_eq_true_eq] at this
      exact this.1
    rw [goParseInt10]
    dsimp only
    rw [if_neg (by omega : ¬ (c = 45 ∨ c = 43))]
    rw [if_neg (by simp : (c :: cs : List Nat) ≠ [])]
    rw [if_pos hall]
    rw [if_neg (by simp only [decide_eq_true_eq]; omega : ¬ (decide (c = 45)) = true)]
    rw [hfold]
    rw [if_pos (by omega : i.toNat < 2 ^ 63)]
    congr 1
    simp only [Int.ofNat_eq_coe]
    omega

end controls


section C1Helpers

open controls

namespace ber

@[simp] lemma constructed_Encode (cls : Nat) (t : Bool) (tag : Nat) (v : GoValue) (ds : GoStr) :
    (Encode cls t tag v ds).constructed = t := by
  simp [Encode]

@[simp] lemma cls_Encode (cls : Nat) (t : Bool) (tag : Nat) (v : GoValue) (ds : GoStr) :
    (Encode cls t tag v ds).cls = cls := by
  simp [Encode]

lemma children_reparse (p : Packet) (h : p.constructed = true) :
    p.reparse.children = p.children.map Packet.reparse := by
  cases p with
  | mk c t g v d ch s =>
      rw [reparse_mk]
      simp only [constructed_mk] at h
      rw [if_pos h]
      simp

lemma value_reparse_prim (p : Packet) (h : p.constructed = false) :
    p.reparse.value = readValue p.cls p.tag p.data := by
  cases p with
  | mk c t g v d ch s =>
      rw [reparse_mk]
      simp only [constructed_mk] at h
      subst h
      simp

lemma reparse_NewString (s ds : GoStr) :
    (NewString ClassUniversal false TagOctetString s ds).reparse =
      Packet.mk 0 false 4 (.vstr s) s [] [] := by
  show (Packet.mk 0 false 4 (.vstr s) s [] ds).reparse = _
  rw [reparse_mk]
  rfl

lemma children_foldl {α : Type} (f : α → Packet) :
    ∀ (l : List α) (base : Packet),
    (l.foldl (fun acc x => acc.AppendChild (f x)) base).children
      = base.children ++ l.map f := by
  intro l
  induction l with
  | nil => intro base; simp
  | cons a l ih =>
      intro base
      rw [List.foldl_cons, ih, List.map_cons]
      simp

lemma value_foldl {α : Type} (f : α → Packet) :
    ∀ (l : List α) (base : Packet),
    (l.foldl (fun acc x => acc.AppendChild (f x)) base).value = base.value := by
  intro l
  induction l with
  | nil => intro base; simp
  | cons a l ih =>
      intro base
      rw [List.foldl_cons, ih]
      simp

lemma tag_foldl {α : Type} (f : α → Packet) :
    ∀ (l : List α) (base : Packet),
    (l.foldl (fun acc x => acc.AppendChild (f x)) base).tag = base.tag := by
  intro l
  induction l with
  | nil => intro base; simp
  | cons a l ih =>
      intro base
      rw [List.foldl_cons, ih]
      simp

lemma constructed_foldl {α : Type} (f : α → Packet) :
    ∀ (l : List α) (base : Packet),
    (l.foldl (fun acc x => acc.AppendChild (f x)) base).constructed = base.constructed := by
  intro l
  induction l with
  | nil => intro base; simp
  | cons a l ih =>
      intro base
      rw [List.foldl_cons, ih]
      simp

end ber

lemma decode_ctrlEncode_manageDsaIT (b : Bool) :
    (Decode (manageDsaITEncode b)).1 = .ok (.manageDsaIT b) := by
  cases b
  · rw [show manageDsaITEncode false = Encode (.manageDsaIT false) none from rfl,
      Decode_Encode_none_false (.manageDsaIT false) rfl]
    exact dispatch_ok _ _ _ _ _ decodeManageDsaIT _ rfl rfl
  · rw [show manageDsaITEncode true = Encode (.manageDsaIT true) none from rfl,
      Decode_Encode_none_true (.manageDsaIT true) rfl]
    exact dispatch_ok _ _ _ _ _ decodeManageDsaIT _ rfl rfl

lemma decode_ctrlEncode_paging (cr : Bool) (size : Nat) (cookie : List Nat)
    (h : size < 2 ^ 32) :
    (Decode (pagingEncode cr size cookie)).1 = .ok (.paging cr size cookie) := by
  simp only [pagingEncode]
  have hres : ∀ (oid2 : GoStr) (cr2 : Bool) (v : ber.Packet),
      v.children =
        [ber.NewInteger ber.ClassUniversal false ber.TagInteger (Int.ofNat size)
          (strBytes ("Paging Size")),
         ber.Packet.mk ber.ClassUniversal false ber.TagOctetString (.vbytes cookie) cookie []
          (strBytes ("Cookie"))] →
      (decodePaging oid2 cr2 (some v)).res = .ok (.paging cr2 size cookie) := by
    intro oid2 cr2 v hch
    have hsz : ((Int.ofNat size) % ((2 : Int) ^ 32)).toNat = size := by
      simp only [Int.ofNat_eq_coe]
      rw [show ((2 : Int) ^ 32) = 4294967296 from by norm_num]
      omega
    simp only [decodePaging, hch, ber.NewInteger, ber.value_mk, ber.data_mk, hsz]
  cases cr
  · rw [Decode_Encode_some_false (.paging false size cookie) _ rfl (by intro b hb; simp at hb)]
    exact dispatch_ok _ _ _ _ _ decodePaging _ rfl (hres _ _ _ (by simp))
  · rw [Decode_Encode_some_true (.paging true size cookie) _ rfl]
    exact dispatch_ok _ _ _ _ _ decodePaging _ rfl (hres _ _ _ (by simp))

lemma decode_ctrlEncode_proxied (cr : Bool) :
    (Decode (proxiedAuthorizationEncode cr [])).1 = .ok (.proxiedAuthorization cr []) := by
  simp only [proxiedAuthorizationEncode]
  have hres : ∀ (oid2 : GoStr) (cr2 : Bool) (v : ber.Packet),
      v.data = [] →
      (decodeProxiedAuthorization oid2 cr2 (some v)).res =
        .ok (.proxiedAuthorization cr2 []) := by
    intro oid2 cr2 v hd
    simp [decodeProxiedAuthorization, ber.DecodeString, hd]
  cases cr
  · rw [Decode_Encode_some_false (.proxiedAuthorization false []) _ rfl
      (by intro b hb; simp at hb)]
    exact dispatch_ok _ _ _ _ _ decodeProxiedAuthorization _ rfl
      (hres _ _ _ (by simp [ber.Encode]))
  · rw [Decode_Encode_some_true (.proxiedAuthorization true []) _ rfl]
    exact dispatch_ok _ _ _ _ _ decodeProxiedAuthorization _ rfl
      (hres _ _ _ (by simp [ber.Encode]))

lemma decode_ctrlEncode_vchuMust :
    (Decode (vchuPasswordMustChangeEncode true)).1 = .ok (.vchuPasswordMustChange true) := by
  simp only [vchuPasswordMustChangeEncode]
  rw [Decode_Encode_some_false (.vchuPasswordMustChange true) _ rfl (by intro b hb; simp at hb)]
  exact dispatch_ok _ _ _ _ _ decodeVChuPassword _ rfl (by rfl)

lemma decode_ctrlEncode_vchuWarn (i : Int) (h1 : -(2 ^ 63) ≤ i) (h2 : i < 2 ^ 63) :
    (Decode (vchuPasswordWarningEncode i)).1 = .ok (.vchuPasswordWarning i) := by
  simp only [vchuPasswordWarningEncode]
  have hres : ∀ (cr2 : Bool) (v : ber.Packet),
      v.children =
        [ber.Encode ber.ClassUniversal false ber.TagOctetString (.vstr (goItoa i))
          (strBytes ("Expire time"))] →
      (decodeVChuPassword ControlOIDVChuPasswordWarning cr2 (some v)).res =
        .ok (.vchuPasswordWarning i) := by
    intro cr2 v hch
    rw [decodeVChuPassword, if_neg (by decide), if_pos rfl]
    simp only [hch]
    have hdata : (ber.Encode ber.ClassUniversal false ber.TagOctetString (.vstr (goItoa i))
        (strBytes ("Expire time"))).data = goItoa i := rfl
    simp only [hdata, ber.DecodeString, goParseInt10_goItoa i h1 h2]
  rw [Decode_Encode_some_false (.vchuPasswordWarning i) _ rfl (by intro b hb; simp at hb)]
  exact dispatch_ok _ _ _ _ _ decodeVChuPassword _ rfl (hres _ _ (by simp))

end C1Helpers


section C1Behera

open controls

lemma beheraLoop_nil (crit : Bool) (e g er : Int) (es : GoStr) :
    beheraLoop crit e g er es [] = (.ok (.behera e g er es crit), []) := rfl

/-- One warning step of the Behera loop holding the grace integer at nested
tag 1: assigns grace and recurses. -/
lemma beheraLoop_warn_grace (crit : Bool) (e g er g2 : Int) (es ds1 ds2 : GoStr)
    (rest : List ber.Packet)
    (h1 : -(2 ^ 63) ≤ g2) (h2 : g2 < 2 ^ 63) :
    beheraLoop crit e g er es
      (((ber.Encode ber.ClassContext true 0 .none ds1).AppendChild
          (ber.NewInteger ber.ClassContext false 1 g2 ds2)) :: rest) =
      ((beheraLoop crit e g2 er es rest).1,
        (((ber.Encode ber.ClassContext true 0 .none ds1).AppendChild
            (ber.NewInteger ber.ClassContext false 1 g2 ds2)).setDesc
              (strBytes ("Warning Packet"))).setChildren
          [(ber.NewInteger ber.ClassContext false 1 g2 ds2).setDesc (strBytes ("Grace Time"))]
        :: (beheraLoop crit e g2 er es rest).2) := by
  rw [beheraLoop]
  simp [ber.Encode, ber.NewInteger, ber.Packet.AppendChild, ber.ClassContext,
    ber.parseInt64_encodeInteger g2 h1 h2]

lemma decode_ctrlEncode_behera (e g er : Int) (es : GoStr) (cr : Bool)
    (hw : (e = -1 ∧ g = -1) ∨ (0 ≤ e ∧ e < 2 ^ 63 ∧ g = -1)
      ∨ (e = -1 ∧ 0 ≤ g ∧ g < 2 ^ 63))
    (he : (er = -1 ∧ es = [])
      ∨ (0 ≤ er ∧ er ≤ 127 ∧ es = BeheraPasswordPolicyErrorMap er)) :
    (Decode (beheraEncode e g er es cr)).1 = .ok (.behera e g er es cr) := by
  rcases he with ⟨her, hes⟩ | ⟨her1, her2, hes⟩
  · subst her
    subst hes
    rcases hw with ⟨he1, hg1⟩ | ⟨he1, he2, hg1⟩ | ⟨he1, hg1, hg2⟩
    · subst he1
      subst hg1
      simp only [beheraEncode]
      rw [if_pos (by norm_num : ((-1 : Int) < 0 ∧ (-1 : Int) < 0 ∧ (-1 : Int) < 0))]
      cases cr
      · rw [Decode_Encode_none_false (.behera (-1) (-1) (-1) [] false) rfl]
        exact dispatch_ok _ _ _ _ _ decodeBehera _ rfl rfl
      · rw [Decode_Encode_none_true (.behera (-1) (-1) (-1) [] true) rfl]
        exact dispatch_ok _ _ _ _ _ decodeBehera _ rfl rfl
    · subst hg1
      simp only [beheraEncode]
      rw [if_neg (by omega : ¬((-1 : Int) < 0 ∧ e < 0 ∧ (-1 : Int) < 0))]
      rw [if_pos (Or.inr he1 : (0 : Int) ≤ -1 ∨ 0 ≤ e), if_pos he1]
      rw [if_neg (by norm_num : ¬((0 : Int) ≤ -1))]
      have hloop : ∀ (oid2 : GoStr) (crit2 : Bool) (v2 : ber.Packet),
          v2.children =
            [(ber.Encode ber.ClassContext true 0 .none
                (strBytes ("Warning Packet"))).AppendChild
              (ber.NewInteger ber.ClassContext false 0 e
                (strBytes ("Time Before Expiration")))] →
          (decodeBehera oid2 crit2 (some v2)).res =
            .ok (.behera e (-1) (-1) [] crit2) := by
        intro oid2 crit2 v2 hch2
        simp only [decodeBehera, hch2]
        rw [beheraLoop_warn_expire crit2 (-1) (-1) (-1) e _ _ _ _ (by omega) he2]
        rw [beheraLoop]
      cases cr
      · rw [Decode_Encode_some_false (.behera e (-1) (-1) [] false) _ rfl
          (by intro b hb; simp at hb)]
        exact dispatch_ok _ _ _ _ _ decodeBehera _ rfl (hloop _ _ _ (by simp))
      · rw [Decode_Encode_some_true (.behera e (-1) (-1) [] true) _ rfl]
        exact dispatch_ok _ _ _ _ _ decodeBehera _ rfl (hloop _ _ _ (by simp))
    · subst he1
      simp only [beheraEncode]
      rw [if_neg (by omega : ¬((g : Int) < 0 ∧ (-1 : Int) < 0 ∧ (-1 : Int) < 0))]
      rw [if_pos (Or.inl hg1 : (0 : Int) ≤ g ∨ (0 : Int) ≤ -1)]
      rw [if_neg (by norm_num : ¬((0 : Int) ≤ (-1 : Int)))]
      rw [if_neg (by norm_num : ¬((0 : Int) ≤ -1))]
      have hloop : ∀ (oid2 : GoStr) (crit2 : Bool) (v2 : ber.Packet),
          v2.children =
            [(ber.Encode ber.ClassContext true 0 .none
                (strBytes ("Warning Packet"))).AppendChild
              (ber.NewInteger ber.ClassContext false 1 g
                (strBytes ("graceAuthNsRemaining")))] →
          (decodeBehera oid2 crit2 (some v2)).res =
            .ok (.behera (-1) g (-1) [] crit2) := by
        intro oid2 crit2 v2 hch2
        simp only [decodeBehera, hch2]
        rw [beheraLoop_warn_grace crit2 (-1) (-1) (-1) g _ _ _ _ (by omega) hg2]
        rw [beheraLoop]
      cases cr
      · rw [Decode_Encode_some_false (.behera (-1) g (-1) [] false) _ rfl
          (by intro b hb; simp at hb)]
        exact dispatch_ok _ _ _ _ _ decodeBehera _ rfl (hloop _ _ _ (by simp))
      · rw [Decode_Encode_some_true (.behera (-1) g (-1) [] true) _ rfl]
        exact dispatch_ok _ _ _ _ _ decodeBehera _ rfl (hloop _ _ _ (by simp))
  · have hcast : int8cast er = er := by unfold int8cast; omega
    subst hes
    rcases hw with ⟨he1, hg1⟩ | ⟨he1, he2, hg1⟩ | ⟨he1, hg1, hg2⟩
    · subst he1
      subst hg1
      simp only [beheraEncode]
      rw [if_neg (by omega : ¬((-1 : Int) < 0 ∧ (-1 : Int) < 0 ∧ er < 0))]
      rw [if_neg (by norm_num : ¬((0 : Int) ≤ -1 ∨ (0 : Int) ≤ (-1 : Int)))]
      rw [if_pos her1]
      have hloop : ∀ (oid2 : GoStr) (crit2 : Bool) (v2 : ber.Packet),
          v2.children =
            [ber.NewIntegerI8 ber.ClassContext false 1 er
              (BeheraPasswordPolicyErrorMap er)] →
          (decodeBehera oid2 crit2 (some v2)).res =
            .ok (.behera (-1) (-1) er (BeheraPasswordPolicyErrorMap er) crit2) := by
        intro oid2 crit2 v2 hch2
        simp only [decodeBehera, hch2]
        rw [beheraLoop_error crit2 (-1) (-1) (-1) er _ _ _ (by omega) (by omega)]
        rw [hcast, beheraLoop]
      cases cr
      · rw [Decode_Encode_some_false
          (.behera (-1) (-1) er (BeheraPasswordPolicyErrorMap er) false) _ rfl
          (by intro b hb; simp at hb)]
        exact dispatch_ok _ _ _ _ _ decodeBehera _ rfl (hloop _ _ _ (by simp))
      · rw [Decode_Encode_some_true
          (.behera (-1) (-1) er (BeheraPasswordPolicyErrorMap er) true) _ rfl]
        exact dispatch_ok _ _ _ _ _ decodeBehera _ rfl (hloop _ _ _ (by simp))
    · subst hg1
      simp only [beheraEncode]
      rw [if_neg (by omega : ¬((-1 : Int) < 0 ∧ e < 0 ∧ er < 0))]
      rw [if_pos (Or.inr he1 : (0 : Int) ≤ -1 ∨ 0 ≤ e), if_pos he1]
      rw [if_pos her1]
      have hloop : ∀ (oid2 : GoStr) (crit2 : Bool) (v2 : ber.Packet),
          v2.children =
            [(ber.Encode ber.ClassContext true 0 .none
                (strBytes ("Warning Packet"))).AppendChild
              (ber.NewInteger ber.ClassContext false 0 e
                (strBytes ("Time Before Expiration"))),
             ber.NewIntegerI8 ber.ClassContext false 1 er
              (BeheraPasswordPolicyErrorMap er)] →
          (decodeBehera oid2 crit2 (some v2)).res =
            .ok (.behera e (-1) er (BeheraPasswordPolicyErrorMap er) crit2) := by
        intro oid2 crit2 v2 hch2
        simp only [decodeBehera, hch2]
        rw [beheraLoop_warn_expire crit2 (-1) (-1) (-1) e _ _ _ _ (by omega) he2]
        rw [beheraLoop_error crit2 e (-1) (-1) er _ _ _ (by omega) (by omega)]
        rw [hcast, beheraLoop]
      cases cr
      · rw [Decode_Encode_some_false
          (.behera e (-1) er (BeheraPasswordPolicyErrorMap er) false) _ rfl
          (by intro b hb; simp at hb)]
        exact dispatch_ok _ _ _ _ _ decodeBehera _ rfl (hloop _ _ _ (by simp))
      · rw [Decode_Encode_some_true
          (.behera e (-1) er (BeheraPasswordPolicyErrorMap er) true) _ rfl]
        exact dispatch_ok _ _ _ _ _ decodeBehera _ rfl (hloop _ _ _ (by simp))
    · subst he1
      simp only [beheraEncode]
      rw [if_neg (by omega : ¬((g : Int) < 0 ∧ (-1 : Int) < 0 ∧ er < 0))]
      rw [if_pos (Or.inl hg1 : (0 : Int) ≤ g ∨ (0 : Int) ≤ -1)]
      rw [if_neg (by norm_num : ¬((0 : Int) ≤ (-1 : Int)))]
      rw [if_pos her1]
      have hloop : ∀ (oid2 : GoStr) (crit2 : Bool) (v2 : ber.Packet),
          v2.children =
            [(ber.Encode ber.ClassContext true 0 .none
                (strBytes ("Warning Packet"))).AppendChild
              (ber.NewInteger ber.ClassContext false 1 g
                (strBytes ("graceAuthNsRemaining"))),
             ber.NewIntegerI8 ber.ClassContext false 1 er
              (BeheraPasswordPolicyErrorMap er)] →
          (decodeBehera oid2 crit2 (some v2)).res =
            .ok (.behera (-1) g er (BeheraPasswordPolicyErrorMap er) crit2) := by
        intro oid2 crit2 v2 hch2
        simp only [decodeBehera, hch2]
        rw [beheraLoop_warn_grace crit2 (-1) (-1) (-1) g _ _ _ _ (by omega) hg2]
        rw [beheraLoop_error crit2 (-1) g (-1) er _ _ _ (by omega) (by omega)]
        rw [hcast, beheraLoop]
      cases cr
      · rw [Decode_Encode_some_false
          (.behera (-1) g er (BeheraPasswordPolicyErrorMap er) false) _ rfl
          (by intro b hb; simp at hb)]
        exact dispatch_ok _ _ _ _ _ decodeBehera _ rfl (hloop _ _ _ (by simp))
      · rw [Decode_Encode_some_true
          (.behera (-1) g er (BeheraPasswordPolicyErrorMap er) true) _ rfl]
        exact dispatch_ok _ _ _ _ _ decodeBehera _ rfl (hloop _ _ _ (by simp))

end C1Behera


section C1PrePostRead

open controls

lemma reparse_mk_con (c : Nat) (g : Nat) (v : ber.GoValue) (d : List Nat)
    (ch : List ber.Packet) (s : GoStr) :
    (ber.Packet.mk c true g v d ch s).reparse =
      .mk c true g .none d (ch.map ber.Packet.reparse) [] := by
  rw [ber.reparse_mk]
  rfl

lemma pprAttrsLoop_snd_map (ds : GoStr) : ∀ attrs : List GoStr,
    (pprAttrsLoop (attrs.map fun a =>
      ber.NewString ber.ClassUniversal false ber.TagOctetString a ds)).2 = some attrs := by
  intro attrs
  induction attrs with
  | nil => rfl
  | cons a rest ih =>
      rw [List.map_cons, pprAttrsLoop]
      rcases hr : pprAttrsLoop (rest.map fun a =>
        ber.NewString ber.ClassUniversal false ber.TagOctetString a ds) with ⟨rest2, oo⟩
      rw [hr] at ih
      simp only at ih
      subst ih
      simp only [ber.NewString, ber.value_mk] at hr ⊢
      try rw [hr]

lemma decode_ctrlEncode_pprReq (o : GoStr) (cr : Bool) (attrs : List GoStr)
    (ho : o = ControlOIDPreRead ∨ o = ControlOIDPostRead) :
    (Decode (prePostReadEncode true o cr attrs [] [])).1 =
      .ok (.prePostRead true o cr attrs [] []) := by
  have hres : ∀ (cr2 : Bool) (v : ber.Packet),
      v.tag = ber.TagSequence →
      v.children = attrs.map (fun a =>
        ber.NewString ber.ClassUniversal false ber.TagOctetString a
          (strBytes ("Request Attribute"))) →
      (decodePrePostRead o cr2 (some v)).res = .ok (.prePostRead true o cr2 attrs [] []) := by
    intro cr2 v htag hch
    unfold decodePrePostRead
    rw [if_pos ho]
    dsimp only
    rw [if_pos htag, hch]
    have h2 := pprAttrsLoop_snd_map (strBytes ("Request Attribute")) attrs
    rcases hl : pprAttrsLoop (attrs.map fun a =>
      ber.NewString ber.ClassUniversal false ber.TagOctetString a
        (strBytes ("Request Attribute"))) with ⟨ch2, oo⟩
    rw [hl] at h2
    simp only at h2
    subst h2
    rfl
  simp only [prePostReadEncode]
  simp only [eq_self_iff_true, if_true]
  rcases ho with ho1 | ho1 <;> subst ho1 <;> cases cr <;>
    [rw [Decode_Encode_some_false (.prePostRead true ControlOIDPreRead false attrs [] []) _
        rfl (by intro b hb; rw [ber.value_foldl] at hb; simp at hb)];
     rw [Decode_Encode_some_true (.prePostRead true ControlOIDPreRead true attrs [] []) _ rfl];
     rw [Decode_Encode_some_false (.prePostRead true ControlOIDPostRead false attrs [] []) _
        rfl (by intro b hb; rw [ber.value_foldl] at hb; simp at hb)];
     rw [Decode_Encode_some_true (.prePostRead true ControlOIDPostRead true attrs [] []) _ rfl]] <;>
    exact dispatch_ok _ _ _ _ _ decodePrePostRead _ rfl
      (hres _ _ (by simp [ber.tag_foldl]) (by simp [ber.children_foldl]))

lemma pprValsLoop_map_reparse (ds : GoStr) : ∀ vals : List GoStr,
    pprValsLoop ((vals.map fun v2 =>
      ber.NewString ber.ClassUniversal false ber.TagOctetString v2 ds).map
        ber.Packet.reparse) = some vals := by
  intro vals
  induction vals with
  | nil => rfl
  | cons a rest ih =>
      simp only [List.map_cons]
      rw [pprValsLoop, ber.reparse_NewString]
      simp only [ber.value_mk]
      rw [ih]
      rfl

lemma pprAvLoop_map_reparse : ∀ avs : List (GoStr × List GoStr),
    pprAvLoop ((avs.map
      (fun av =>
      (((ber.Encode ber.ClassUniversal true ber.TagSequence .none
            (strBytes ("Result Attribute"))).AppendChild
          (ber.NewString ber.ClassUniversal false ber.TagOctetString av.1
            (strBytes ("Result Attribute Name")))).AppendChild
          (av.2.foldl
            (fun acc2 v => acc2.AppendChild
              (ber.NewString ber.ClassUniversal false ber.TagOctetString v
                (strBytes ("Result Attribute Value"))))
            (ber.Encode ber.ClassUniversal true ber.TagSequence .none
              (strBytes ("Result Attribute Values")))) : ber.Packet))).map ber.Packet.reparse) = some avs := by
  intro avs
  induction avs with
  | nil => rfl
  | cons av rest ih =>
      simp only [List.map_cons]
      rw [pprAvLoop]
      have hch : (((((ber.Encode ber.ClassUniversal true ber.TagSequence .none
            (strBytes ("Result Attribute"))).AppendChild
          (ber.NewString ber.ClassUniversal false ber.TagOctetString av.1
            (strBytes ("Result Attribute Name")))).AppendChild
          (av.2.foldl
            (fun acc2 v => acc2.AppendChild
              (ber.NewString ber.ClassUniversal false ber.TagOctetString v
                (strBytes ("Result Attribute Value"))))
            (ber.Encode ber.ClassUniversal true ber.TagSequence .none
              (strBytes ("Result Attribute Values"))))) : ber.Packet).reparse).children =
          [(ber.NewString ber.ClassUniversal false ber.TagOctetString av.1
              (strBytes ("Result Attribute Name"))).reparse,
           ((av.2.foldl
            (fun acc2 v => acc2.AppendChild
              (ber.NewString ber.ClassUniversal false ber.TagOctetString v
                (strBytes ("Result Attribute Value"))))
            (ber.Encode ber.ClassUniversal true ber.TagSequence .none
              (strBytes ("Result Attribute Values"))))).reparse] := by
        rw [ber.children_reparse _ (by simp)]
        simp
      rw [hch, ber.reparse_NewString]
      simp only [ber.value_mk]
      have hb : pprValsLoop (((av.2.foldl
            (fun acc2 v => acc2.AppendChild
              (ber.NewString ber.ClassUniversal false ber.TagOctetString v
                (strBytes ("Result Attribute Value"))))
            (ber.Encode ber.ClassUniversal true ber.TagSequence .none
              (strBytes ("Result Attribute Values"))))).reparse).children = some av.2 := by
        rw [ber.children_reparse _ (by rw [ber.constructed_foldl]; simp)]
        rw [ber.children_foldl]
        simp only [ber.children_Encode, List.nil_append]
        exact pprValsLoop_map_reparse _ av.2
      rw [hb, ih]
      simp

lemma decode_ctrlEncode_pprRes (o : GoStr) (cr : Bool) (dn : GoStr)
    (avs : List (GoStr × List GoStr))
    (ho : o = ControlOIDPreRead ∨ o = ControlOIDPostRead)
    (hwf : (pprEntry dn avs).wfB = true) :
    (Decode (prePostReadEncode false o cr [] dn avs)).1 =
      .ok (.prePostRead false o cr [] dn avs) := by
  have hentry : pprEntry dn avs =
      ber.Packet.mk 0 true 16 .none
        ((ber.NewString ber.ClassUniversal false ber.TagOctetString dn
            (strBytes ("Response DN"))).Bytes ++ ((avs.foldl (fun acc av => acc.AppendChild
        (((ber.Encode ber.ClassUniversal true ber.TagSequence .none
            (strBytes ("Result Attribute"))).AppendChild
          (ber.NewString ber.ClassUniversal false ber.TagOctetString av.1
            (strBytes ("Result Attribute Name")))).AppendChild
          (av.2.foldl
            (fun acc2 v => acc2.AppendChild
              (ber.NewString ber.ClassUniversal false ber.TagOctetString v
                (strBytes ("Result Attribute Value"))))
            (ber.Encode ber.ClassUniversal true ber.TagSequence .none
              (strBytes ("Result Attribute Values"))))))
      (ber.Encode ber.ClassUniversal true ber.TagSequence .none
        (strBytes ("Result Attributes"))))).Bytes)
        [ber.NewString ber.ClassUniversal false ber.TagOctetString dn
            (strBytes ("Response DN")),
         (avs.foldl (fun acc av => acc.AppendChild
        (((ber.Encode ber.ClassUniversal true ber.TagSequence .none
            (strBytes ("Result Attribute"))).AppendChild
          (ber.NewString ber.ClassUniversal false ber.TagOctetString av.1
            (strBytes ("Result Attribute Name")))).AppendChild
          (av.2.foldl
            (fun acc2 v => acc2.AppendChild
              (ber.NewString ber.ClassUniversal false ber.TagOctetString v
                (strBytes ("Result Attribute Value"))))
            (ber.Encode ber.ClassUniversal true ber.TagSequence .none
              (strBytes ("Result Attribute Values"))))))
      (ber.Encode ber.ClassUniversal true ber.TagSequence .none
        (strBytes ("Result Attributes"))))]
        (strBytes ("Result Entry")) := by
    simp [pprEntry, ber.Encode, ber.Packet.AppendChild, ber.ClassUniversal,
      ber.TagSequence]
  have hres : ∀ (cr2 : Bool) (v : ber.Packet),
      v.tag = ber.TagOctetString →
      v.data = (pprEntry dn avs).Bytes →
      (decodePrePostRead o cr2 (some v)).res =
        .ok (.prePostRead false o cr2 [] dn avs) := by
    intro cr2 v htag hdata
    unfold decodePrePostRead
    rw [if_pos ho]
    dsimp only
    rw [if_neg (by rw [htag]; decide), if_pos htag, hdata,
      ber.DecodePacketErr_Bytes _ hwf]
    dsimp only
    rw [hentry, reparse_mk_con]
    simp only [ber.children_mk, List.map_cons, List.map_nil]
    rw [ber.reparse_NewString]
    simp only [ber.value_mk]
    have hav : pprAvLoop (((avs.foldl (fun acc av => acc.AppendChild
        (((ber.Encode ber.ClassUniversal true ber.TagSequence .none
            (strBytes ("Result Attribute"))).AppendChild
          (ber.NewString ber.ClassUniversal false ber.TagOctetString av.1
            (strBytes ("Result Attribute Name")))).AppendChild
          (av.2.foldl
            (fun acc2 v => acc2.AppendChild
              (ber.NewString ber.ClassUniversal false ber.TagOctetString v
                (strBytes ("Result Attribute Value"))))
            (ber.Encode ber.ClassUniversal true ber.TagSequence .none
              (strBytes ("Result Attribute Values"))))))
      (ber.Encode ber.ClassUniversal true ber.TagSequence .none
        (strBytes ("Result Attributes"))))).reparse).children = some avs := by
      rw [ber.children_reparse _ (by rw [ber.constructed_foldl]; simp)]
      rw [ber.children_foldl]
      simp only [ber.children_Encode, List.nil_append]
      exact pprAvLoop_map_reparse avs
    rw [hav]
  simp only [prePostReadEncode]
  simp only [Bool.false_eq_true, if_false]
  rcases ho with ho1 | ho1 <;> subst ho1 <;> cases cr <;>
    [rw [Decode_Encode_some_false (.prePostRead false ControlOIDPreRead false [] dn avs) _
        rfl (by intro b hb; simp at hb)];
     rw [Decode_Encode_some_true (.prePostRead false ControlOIDPreRead true [] dn avs) _ rfl];
     rw [Decode_Encode_some_false (.prePostRead false ControlOIDPostRead false [] dn avs) _
        rfl (by intro b hb; simp at hb)];
     rw [Decode_Encode_some_true (.prePostRead false ControlOIDPostRead true [] dn avs) _ rfl]] <;>
    exact dispatch_ok _ _ _ _ _ decodePrePostRead _ rfl
      (hres _ _ (by simp) (by simp [ber.Encode]))

end C1PrePostRead


section C1Main

open controls

/-- C1 counterexample: a ProxiedAuthorization control with a non empty
AuthzID does not survive the round trip, because ber.Encode never writes a
byte slice value to Data, so the decoder reads back an empty identity. -/
theorem c1_counterexample :
    ctrlEncode (.proxiedAuthorization false (strBytes ("u"))) =
      some (proxiedAuthorizationEncode false (strBytes ("u")))
    ∧ (Decode (proxiedAuthorizationEncode false (strBytes ("u")))).1 =
        .ok (.proxiedAuthorization false [])
    ∧ Control.proxiedAuthorization false [] ≠
        Control.proxiedAuthorization false (strBytes ("u")) :=
  ⟨rfl, rfl, by decide⟩

/-- C1 amended: on canonical control values, Decode of the control's own
Encode output returns the control itself, and re-encoding the decoded control
yields a byte identical packet. -/
theorem c1_canonical_roundtrip (c : Control) (h : canonicalB c = true) :
    ∃ pkt : ber.Packet, ctrlEncode c = some pkt ∧ (Decode pkt).1 = .ok c ∧
      ∃ pkt2 : ber.Packet, ctrlEncode c = some pkt2 ∧ pkt2.Bytes = pkt.Bytes := by
  cases c with
  | manageDsaIT b =>
      exact ⟨_, rfl, decode_ctrlEncode_manageDsaIT b, _, rfl, rfl⟩
  | paging cr size cookie =>
      simp only [canonicalB, decide_eq_true_eq] at h
      exact ⟨_, rfl, decode_ctrlEncode_paging cr size cookie h, _, rfl, rfl⟩
  | behera e g er es cr =>
      simp only [canonicalB, Bool.and_eq_true, Bool.or_eq_true, decide_eq_true_eq] at h
      obtain ⟨hw, he⟩ := h
      exact ⟨_, rfl, decode_ctrlEncode_behera e g er es cr (by tauto) (by tauto),
        _, rfl, rfl⟩
  | proxiedAuthorization cr a =>
      simp only [canonicalB, decide_eq_true_eq] at h
      subst h
      exact ⟨_, rfl, decode_ctrlEncode_proxied cr, _, rfl, rfl⟩
  | vchuPasswordMustChange b =>
      have hb : b = true := h
      subst hb
      exact ⟨_, rfl, decode_ctrlEncode_vchuMust, _, rfl, rfl⟩
  | vchuPasswordWarning i =>
      simp only [canonicalB, Bool.and_eq_true, decide_eq_true_eq] at h
      exact ⟨_, rfl, decode_ctrlEncode_vchuWarn i h.1 h.2, _, rfl, rfl⟩
  | prePostRead r o cr attrs dn avs =>
      simp only [canonicalB, Bool.and_eq_true, Bool.or_eq_true, decide_eq_true_eq] at h
      obtain ⟨ho, h2⟩ := h
      cases r
      · simp only [Bool.false_eq_true, if_false, Bool.and_eq_true, decide_eq_true_eq] at h2
        obtain ⟨ha, hwf⟩ := h2
        subst ha
        exact ⟨_, rfl, decode_ctrlEncode_pprRes o cr dn avs ho hwf, _, rfl, rfl⟩
      · simp only [eq_self_iff_true, if_true, Bool.and_eq_true, decide_eq_true_eq] at h2
        obtain ⟨hdn, havs⟩ := h2
        subst hdn
        subst havs
        exact ⟨_, rfl, decode_ctrlEncode_pprReq o cr attrs ho, _, rfl, rfl⟩
  | unknown o cr => simp [canonicalB] at h

/-- C1 witness: a canonical Paging control with a cookie round trips. -/
theorem c1_witness :
    canonicalB (.paging true 5 [1, 2]) = true
    ∧ ∃ pkt : ber.Packet, ctrlEncode (.paging true 5 [1, 2]) = some pkt
        ∧ (Decode pkt).1 = .ok (.paging true 5 [1, 2])
        ∧ ∃ pkt2 : ber.Packet, ctrlEncode (.paging true 5 [1, 2]) = some pkt2
            ∧ pkt2.Bytes = pkt.Bytes :=
  ⟨by decide, c1_canonical_roundtrip (.paging true 5 [1, 2]) (by decide)⟩

end C1Main
